import Mathlib

/-!
Verification development for the prompt-template core of the `responses`
crate: the template parser and executor (`src/prompt/template.rs`), the
locale manager (`src/prompt/i18n.rs`) and the conversation segmentation
(`ConversationTemplate::parse_conversation_content`).

Strings are modelled as `String` / `List Char`; Rust byte positions become
character positions (all delimiters are ASCII, so the two coincide on the
delimiter structure). `f64` arithmetic of the `format_number` helper is
modelled over `Rat` with round-half-away-from-zero, matching `f64::round`.
`HashMap` values are modelled as association lists iterated in insertion
order. Filesystem access and locale loading are abstracted as functions
supplied in the environment.
-/

/-! ## Basic character-list utilities -/

/-- Model of Rust `char::is_whitespace`: the Unicode White_Space set
(U+0009..U+000D, space, NEL, NBSP, OGHAM, U+2000..U+200A, LS, PS, NNBSP,
MMSP, IDSP). -/
def isWsp (c : Char) : Bool :=
  c = ' ' || c = '\t' || c = '\n' || c = '\x0b' || c = '\x0c' || c = '\r' ||
  c = '\x85' || c = '\xa0' || c = '\u1680' ||
  ('\u2000' ≤ c && c ≤ '\u200a') ||
  c = '\u2028' || c = '\u2029' || c = '\u202f' || c = '\u205f' || c = '\u3000'

/-- Model of Rust `str::trim`. -/
def rtrim (s : String) : String :=
  String.mk (((s.toList.dropWhile isWsp).reverse.dropWhile isWsp).reverse)

/-- Model of Rust `str::starts_with`. -/
def strStartsWith (s p : String) : Bool := p.toList.isPrefixOf s.toList

/-- Drop the first `n` characters, the model of slicing `&s[n..]`. -/
def strDrop (n : Nat) (s : String) : String := String.mk (s.toList.drop n)

/-- Model of Rust `str::to_lowercase` (ASCII fragment). -/
def toLowerStr (s : String) : String := String.mk (s.toList.map Char.toLower)

/-- Model of Rust `str::trim_matches(c)`: strip `c` repeatedly from both ends. -/
def trim_matches (c : Char) (s : String) : String :=
  String.mk (((s.toList.dropWhile (· = c)).reverse.dropWhile (· = c)).reverse)

/-- Model of Rust `str::contains(char)`. -/
def strContainsChar (s : String) (c : Char) : Bool := s.toList.any (· = c)

def splitOnCharAux (c : Char) : List Char → List Char → List String
  | [], acc => [String.mk acc.reverse]
  | x :: xs, acc =>
    if x = c then String.mk acc.reverse :: splitOnCharAux c xs []
    else splitOnCharAux c xs (x :: acc)

/-- Model of Rust `str::split(c)`. -/
def splitOnChar (c : Char) (s : String) : List String := splitOnCharAux c s.toList []

def splitWspAux : List Char → List Char → List String
  | [], acc => [String.mk acc.reverse]
  | x :: xs, acc =>
    if isWsp x then String.mk acc.reverse :: splitWspAux xs []
    else splitWspAux xs (x :: acc)

/-- Model of Rust `str::split_whitespace` (split on whitespace, no empties). -/
def split_whitespace (s : String) : List String :=
  (splitWspAux s.toList []).filter (· ≠ "")

def split_onceAux (c : Char) : List Char → List Char → Option (String × String)
  | [], _ => none
  | x :: xs, acc =>
    if x = c then some (String.mk acc.reverse, String.mk xs)
    else split_onceAux c xs (x :: acc)

/-- Model of Rust `str::split_once(c)`. -/
def split_once (c : Char) (s : String) : Option (String × String) :=
  split_onceAux c s.toList []

/-- Join a list of strings with a separator, model of `Vec::join`. -/
def joinSep (sep : String) : List String → String
  | [] => ""
  | [x] => x
  | x :: y :: xs => x ++ sep ++ joinSep sep (y :: xs)

/-- Index of the first occurrence of `pat` in `hay`, the model of Rust
`str::find(pat)`. -/
def findSub (pat : List Char) : List Char → Option Nat
  | [] => if pat.isPrefixOf ([] : List Char) then some 0 else none
  | c :: t =>
    if pat.isPrefixOf (c :: t) then some 0
    else (findSub pat t).map (· + 1)

/-- Substring test built on `findSub`. -/
def strContainsSub (hay pat : String) : Bool := (findSub pat.toList hay.toList).isSome

/-! ## Locale manager (`src/prompt/i18n.rs`) -/

/-- The directory layout a `LocaleManager` sees: `dirExists c` states that
`locales_path.join(c)` exists, and the configured default locale id. -/
structure LocaleManager where
  dirExists : String → Bool
  default_locale : String

/-- `LocaleManager::get_parent_locale`: `locale.split('-').next()`, which is
always `some`, so the `unwrap_or_default` at the call sites never fires. -/
def get_parent_locale (locale : String) : String :=
  (splitOnChar '-' locale).headD ""

/-- `LocaleManager::resolve_locale_path`: first of the candidate directories
`locale`, `parent(locale)`, `default_locale` that exists; `none` models the
`LocaleNotFound` error. -/
def resolve_locale_path (m : LocaleManager) (locale : String) : Option String :=
  [locale, get_parent_locale locale, m.default_locale].find? m.dirExists

/-- `LocaleManager::resolve_locale`: first non-empty member of the fallback
chain for which `resolve_locale_path` succeeds. -/
def resolve_locale (m : LocaleManager) (requested : String) : Option String :=
  [requested, get_parent_locale requested, m.default_locale].find?
    (fun l => !l.isEmpty && (resolve_locale_path m l).isSome)

/-- Concrete store used in the C1 example: only the `es` and `en`
directories exist, default locale `en`. -/
def esMxManager : LocaleManager :=
  { dirExists := fun s => s == "es" || s == "en", default_locale := "en" }

/-! ## Conversation segmentation (`ConversationTemplate::parse_conversation_content`) -/

inductive Role
  | system
  | user
  | assistant
  | developer
deriving DecidableEq, Repr

/-- Model of Rust `str::lines`: split on newline, drop a final empty
segment, strip one trailing carriage return per line. -/
def rustLines (s : String) : List String :=
  let parts := splitOnChar '\n' s
  let parts := if parts.getLast? == some "" then parts.dropLast else parts
  parts.map (fun l =>
    if l.toList.getLast? == some '\r' then String.mk l.toList.dropLast else l)

/-- The `current_content.join("\n").trim()` step of the segmentation loop. -/
def joinedTrimmed (ls : List String) : String := rtrim (joinSep "\n" ls)

/-- Push the pending message, skipping empty content, as in both flush
sites of `parse_conversation_content`. -/
def convFlush (role : Option Role) (content : List String)
    (msgs : List (Role × String)) : List (Role × String) :=
  match role with
  | some r =>
    let cs := joinedTrimmed content
    if cs = "" then msgs else msgs ++ [(r, cs)]
  | none => msgs

/-- The role-header match on the lowercased trimmed line. -/
def roleOfHeader (lower : String) : Option Role :=
  if lower = "## system" then some .system
  else if lower = "## user" then some .user
  else if lower = "## assistant" then some .assistant
  else if lower = "## developer" then some .developer
  else none

/-- The line loop of `parse_conversation_content`; `full` is the whole
rendered content, used verbatim by the implicit-system branch, which also
breaks out of the loop. -/
def convLoop (full : String) : List String → Option Role → List String →
    List (Role × String) → List (Role × String)
  | [], role, content, msgs => convFlush role content msgs
  | line :: rest, role, content, msgs =>
    let trimmed := rtrim line
    if strStartsWith trimmed "## " then
      convLoop full rest (roleOfHeader (toLowerStr trimmed)) [] (convFlush role content msgs)
    else if role.isSome then
      convLoop full rest role (content ++ [line]) msgs
    else if trimmed ≠ "" then
      msgs ++ [(Role.system, full)]
    else
      convLoop full rest role content msgs

/-- `ConversationTemplate::parse_conversation_content` as a function from
the rendered text to the role-tagged message list. -/
def parse_conversation_content (content : String) : List (Role × String) :=
  convLoop content (rustLines content) none [] []

/-! ## Error type (`src/error.rs`, template-relevant variants) -/

inductive RErr
  | templateParsing (msg : String)
  | templateVariableNotFound (name : String)
  | requiredVariablesMissing (names : List String)
  | localeNotFound (locale : String)
  | i18nKeyNotFound (key : String) (locale : String)
  | promptFileRead (path : String)
deriving DecidableEq, Repr

/-- Computation result with explicit fuel exhaustion (`out`); `err` models
`Err(...)` and `ok` models `Ok(...)` of the Rust `Result`; `panic` models a
Rust panic (a string slice at a non-character-boundary byte position). -/
inductive Res (α : Type)
  | out
  | err (e : RErr)
  | panic
  | ok (a : α)
deriving DecidableEq, Repr

/-! ## Template AST (`TemplateNode`) -/

inductive Node
  | text (s : String)
  | varN (name : String)
  | nestedVar (parts : List String)
  | ifN (condition : String) (thenContent : List Node) (elseContent : Option (List Node))
  | eachN (v : String) (content : List Node)
  | switchN (v : String) (cases : List (String × List Node))
  | caseN (value : String) (content : List Node)
  | ifLocaleN (locale : String) (thenContent : List Node) (elseContent : Option (List Node))
  | includeN (path : String) (params : List (String × String))
  | i18nN (key : String) (params : List (String × String))
  | helperN (name : String) (args : List String) (params : List (String × String))
deriving Repr

/-! ## Association lists modelling `HashMap` -/

/-- `HashMap::insert`: replace the value of an existing key or append. -/
def insertAssoc {α : Type} (m : List (String × α)) (k : String) (v : α) :
    List (String × α) :=
  if m.any (fun p => p.1 == k) then m.map (fun p => if p.1 == k then (k, v) else p)
  else m ++ [(k, v)]

/-- `HashMap::get`. -/
def lookupAssoc {α : Type} (m : List (String × α)) (k : String) : Option α :=
  (m.find? (fun p => p.1 == k)).map (·.2)

/-! ## Parser: pure expression sub-parsers -/

/-- Index (within `l`) of the `)` that closes an already-open parenthesis
group at depth `d`, as scanned by the parenthesized-value branch of
`parse_i18n_expression`. -/
def matchParenIdx : Nat → Nat → List Char → Option Nat
  | _, _, [] => none
  | d, i, c :: t =>
    if c = '(' then matchParenIdx (d + 1) (i + 1) t
    else if c = ')' then
      if d = 1 then some i else matchParenIdx (d - 1) (i + 1) t
    else matchParenIdx d (i + 1) t

/-- Parse one i18n parameter value, returning the value text and the number
of characters consumed from the input. Mirrors the three branches of
`parse_i18n_expression`: parenthesized helper expression, quoted string,
bare token up to a space. -/
def i18nParamValue (l : List Char) : String × Nat :=
  match l with
  | '(' :: t =>
    match matchParenIdx 1 0 t with
    | some i => (String.mk (t.take i), 1 + i + 1)
    | none => (String.mk t, l.length)
  | '"' :: t =>
    let v := t.takeWhile (· ≠ '"')
    (String.mk v, 1 + v.length + (if v.length < t.length then 1 else 0))
  | _ =>
    let v := l.takeWhile (· ≠ ' ')
    (String.mk v, v.length)

/-- The parameter loop of `parse_i18n_expression`: skip spaces, read a name
up to `=`, fail if the `=` is missing, read a value, repeat. -/
def parse_i18n_params (cs : List Char) (acc : List (String × String)) :
    Except RErr (List (String × String)) :=
  let cs1 := cs.dropWhile (· = ' ')
  match cs1 with
  | [] => .ok acc
  | _ :: _ =>
    let name := String.mk (cs1.takeWhile (· ≠ '='))
    match h2 : cs1.dropWhile (· ≠ '=') with
    | [] => .error (.templateParsing "Expected = in i18n parameter")
    | _ :: cs3 =>
      parse_i18n_params (cs3.drop (i18nParamValue cs3).2)
        (insertAssoc acc name (i18nParamValue cs3).1)
termination_by cs.length
decreasing_by
  have hd : (cs3.drop (i18nParamValue cs3).2).length ≤ cs3.length := by
    simp [List.length_drop]
  have h3 : cs3.length < (cs1.dropWhile (· ≠ '=')).length := by
    rw [h2]; simp
  have h4 : (cs1.dropWhile (· ≠ '=')).length ≤ cs1.length :=
    List.Sublist.length_le (List.dropWhile_sublist _)
  have h5 : cs1.length ≤ cs.length :=
    List.Sublist.length_le (List.dropWhile_sublist _)
  omega

/-- The key of an i18n expression (quoted or bare) and the input after it,
as read by the key loop of `parse_i18n_expression`. -/
def i18n_key_rest (l : List Char) : String × List Char :=
  match l with
  | '"' :: t =>
    (String.mk (t.takeWhile (· ≠ '"')),
      match t.dropWhile (· ≠ '"') with
      | [] => []
      | _ :: u => u)
  | _ => (String.mk (l.takeWhile (· ≠ ' ')), l.dropWhile (· ≠ ' '))

/-- `TemplateParser::parse_i18n_expression`. -/
def parse_i18n_expression (expr : String) : Except RErr (Option Node) :=
  match parse_i18n_params (i18n_key_rest (expr.toList.dropWhile (· = ' '))).2 [] with
  | .error e => .error e
  | .ok ps => .ok (some (.i18nN (i18n_key_rest (expr.toList.dropWhile (· = ' '))).1 ps))

/-- `TemplateParser::parse_include_expression`. -/
def parse_include_expression (expr : String) : Except RErr (Option Node) :=
  match split_whitespace expr with
  | [] => .error (.templateParsing "Empty include expression")
  | path :: rest =>
    let params := rest.foldl (fun m part =>
      match split_once '=' part with
      | some nv => insertAssoc m nv.1 nv.2
      | none => m) []
    .ok (some (.includeN path params))

/-- `TemplateParser::looks_like_helper_function`. -/
def looks_like_helper_function (expr : String) : Bool :=
  strStartsWith expr "plural " || strStartsWith expr "format_number "

/-- `TemplateParser::parse_helper_expression`. -/
def parse_helper_expression (expr : String) : Except RErr (Option Node) :=
  match split_whitespace expr with
  | [] => .error (.templateParsing "Empty helper expression")
  | name :: rest =>
    let ap := rest.foldl
      (fun (ap : List String × List (String × String)) part =>
        if strContainsChar part '=' then
          match split_once '=' part with
          | some nv => (ap.1, insertAssoc ap.2 nv.1 nv.2)
          | none => ap
        else (ap.1 ++ [part], ap.2)) ([], [])
    .ok (some (.helperN name ap.1 ap.2))

/-! ## Parser: block structure (fuel-indexed) -/

def tokOpen : List Char := ['\x7b', '\x7b']
def tokClose : List Char := ['\x7d', '\x7d']
def tElse : List Char := "\x7b\x7belse\x7d\x7d".toList
def tIfEnd : List Char := "\x7b\x7b/if\x7d\x7d".toList
def tEachEnd : List Char := "\x7b\x7b/each\x7d\x7d".toList
def tSwitchEnd : List Char := "\x7b\x7b/switch\x7d\x7d".toList
def tCaseOpen : List Char := "\x7b\x7b#case ".toList
def tCaseEnd : List Char := "\x7b\x7b/case\x7d\x7d".toList
def tIfLocaleEnd : List Char := "\x7b\x7b/if_locale\x7d\x7d".toList

mutual

/-- `TemplateParser::parse`: the top-level node loop. The state is the
remaining input (every access in the source goes through
`self.content[self.position..]`). -/
def parse (fuel : Nat) (cs : List Char) : Res (List Node × List Char) :=
  match fuel with
  | 0 => .out
  | f + 1 =>
    if cs.isEmpty then .ok ([], cs)
    else
      match parse_next_node f cs with
      | .out => .out
      | .err e => .err e
      | .panic => .panic
      | .ok (none, cs1) => .ok ([], cs1)
      | .ok (some n, cs1) =>
        match parse f cs1 with
        | .out => .out
        | .err e => .err e
        | .panic => .panic
        | .ok (ns, cs2) => .ok (n :: ns, cs2)

/-- `TemplateParser::parse_next_node`. -/
def parse_next_node (fuel : Nat) (cs : List Char) : Res (Option Node × List Char) :=
  match fuel with
  | 0 => .out
  | f + 1 =>
    match findSub tokOpen cs with
    | some start =>
      if 0 < start then .ok (some (.text (String.mk (cs.take start))), cs.drop start)
      else parse_template_expression f (cs.drop 2)
    | none =>
      if cs.isEmpty then .ok (none, cs)
      else .ok (some (.text (String.mk cs)), [])

/-- `TemplateParser::parse_template_expression`: classify the expression
between the braces and dispatch. -/
def parse_template_expression (fuel : Nat) (cs : List Char) :
    Res (Option Node × List Char) :=
  match fuel with
  | 0 => .out
  | f + 1 =>
    match findSub tokClose cs with
    | none => .err (.templateParsing "Unclosed template expression")
    | some e =>
      if strStartsWith (rtrim (String.mk (cs.take e))) "#if " then
        parse_if_block f (strDrop 4 (rtrim (String.mk (cs.take e)))) (cs.drop (e + 2))
      else if strStartsWith (rtrim (String.mk (cs.take e))) "#each " then
        parse_each_block f (strDrop 6 (rtrim (String.mk (cs.take e)))) (cs.drop (e + 2))
      else if strStartsWith (rtrim (String.mk (cs.take e))) "#switch " then
        parse_switch_block f (strDrop 8 (rtrim (String.mk (cs.take e)))) [] (cs.drop (e + 2))
      else if strStartsWith (rtrim (String.mk (cs.take e))) "#if_locale " then
        parse_if_locale_block f (strDrop 11 (rtrim (String.mk (cs.take e)))) (cs.drop (e + 2))
      else if strStartsWith (rtrim (String.mk (cs.take e))) "> " then
        match parse_include_expression (strDrop 2 (rtrim (String.mk (cs.take e)))) with
        | .error er => .err er
        | .ok n => .ok (n, cs.drop (e + 2))
      else if strStartsWith (rtrim (String.mk (cs.take e))) "i18n " then
        match parse_i18n_expression (strDrop 5 (rtrim (String.mk (cs.take e)))) with
        | .error er => .err er
        | .ok n => .ok (n, cs.drop (e + 2))
      else if looks_like_helper_function (rtrim (String.mk (cs.take e))) then
        match parse_helper_expression (rtrim (String.mk (cs.take e))) with
        | .error er => .err er
        | .ok n => .ok (n, cs.drop (e + 2))
      else if strContainsChar (rtrim (String.mk (cs.take e))) '.' then
        .ok (some (.nestedVar (splitOnChar '.' (rtrim (String.mk (cs.take e))))), cs.drop (e + 2))
      else .ok (some (.varN (rtrim (String.mk (cs.take e)))), cs.drop (e + 2))

/-- `TemplateParser::parse_if_block`. -/
def parse_if_block (fuel : Nat) (condition : String) (cs : List Char) :
    Res (Option Node × List Char) :=
  match fuel with
  | 0 => .out
  | f + 1 =>
    match parse_block_until f [tElse, tIfEnd] cs with
    | .out => .out
    | .err e => .err e
    | .panic => .panic
    | .ok (thenC, cs1) =>
      if tElse.isPrefixOf cs1 then
        match parse_block_until f [tIfEnd] (cs1.drop 8) with
        | .out => .out
        | .err e => .err e
        | .panic => .panic
        | .ok (elseC, cs2) =>
          .ok (some (.ifN condition thenC (some elseC)),
            if tIfEnd.isPrefixOf cs2 then cs2.drop 7 else cs2)
      else
        .ok (some (.ifN condition thenC none),
          if tIfEnd.isPrefixOf cs1 then cs1.drop 7 else cs1)

/-- `TemplateParser::parse_each_block`. -/
def parse_each_block (fuel : Nat) (v : String) (cs : List Char) :
    Res (Option Node × List Char) :=
  match fuel with
  | 0 => .out
  | f + 1 =>
    match parse_block_until f [tEachEnd] cs with
    | .out => .out
    | .err e => .err e
    | .panic => .panic
    | .ok (content, cs1) =>
      .ok (some (.eachN v content), if tEachEnd.isPrefixOf cs1 then cs1.drop 9 else cs1)

/-- `TemplateParser::parse_switch_block`: the case-scanning loop. When no
case tag starts at the current position the source advances the position by
one byte; if the character at the position is multi-byte this lands inside
it and the slice at the top of the next iteration panics, modelled by
`Res.panic`; otherwise the one-byte advance is a one-character drop. -/
def parse_switch_block (fuel : Nat) (v : String) (cases : List (String × List Node))
    (cs : List Char) : Res (Option Node × List Char) :=
  match fuel with
  | 0 => .out
  | f + 1 =>
    if cs.isEmpty then .ok (some (.switchN v cases), cs)
    else if tSwitchEnd.isPrefixOf cs then .ok (some (.switchN v cases), cs.drop 11)
    else
      match findSub tCaseOpen cs with
      | some cstart =>
        match findSub tokClose (cs.drop (cstart + 8)) with
        | some cend =>
          match parse_block_until f [tCaseEnd] ((cs.drop (cstart + 8)).drop (cend + 2)) with
          | .out => .out
          | .err e => .err e
          | .panic => .panic
          | .ok (content, cs3) =>
            parse_switch_block f v
              (cases ++
                [(trim_matches '"' (rtrim (String.mk ((cs.drop (cstart + 8)).take cend))),
                  content)])
              (if tCaseEnd.isPrefixOf cs3 then cs3.drop 9 else cs3)
        | none => .ok (some (.switchN v cases), cs.drop (cstart + 8))
      | none =>
        match cs.head? with
        | some c =>
          if 1 < c.utf8Size then .panic
          else parse_switch_block f v cases (cs.drop 1)
        | none => .ok (some (.switchN v cases), cs)

/-- `TemplateParser::parse_if_locale_block`. -/
def parse_if_locale_block (fuel : Nat) (locale_expr : String) (cs : List Char) :
    Res (Option Node × List Char) :=
  match fuel with
  | 0 => .out
  | f + 1 =>
    match parse_block_until f [tElse, tIfLocaleEnd] cs with
    | .out => .out
    | .err e => .err e
    | .panic => .panic
    | .ok (thenC, cs1) =>
      if tElse.isPrefixOf cs1 then
        match parse_block_until f [tIfLocaleEnd] (cs1.drop 8) with
        | .out => .out
        | .err e => .err e
        | .panic => .panic
        | .ok (elseC, cs2) =>
          .ok (some (.ifLocaleN (trim_matches '"' locale_expr) thenC (some elseC)),
            if tIfLocaleEnd.isPrefixOf cs2 then cs2.drop 14 else cs2)
      else
        .ok (some (.ifLocaleN (trim_matches '"' locale_expr) thenC none),
          if tIfLocaleEnd.isPrefixOf cs1 then cs1.drop 14 else cs1)

/-- `TemplateParser::parse_block_until`. -/
def parse_block_until (fuel : Nat) (terms : List (List Char)) (cs : List Char) :
    Res (List Node × List Char) :=
  match fuel with
  | 0 => .out
  | f + 1 =>
    if cs.isEmpty then .ok ([], cs)
    else if terms.any (fun t => t.isPrefixOf cs) then .ok ([], cs)
    else
      match parse_next_node f cs with
      | .out => .out
      | .err e => .err e
      | .panic => .panic
      | .ok (none, cs1) => .ok ([], cs1)
      | .ok (some n, cs1) =>
        match parse_block_until f terms cs1 with
        | .out => .out
        | .err e => .err e
        | .panic => .panic
        | .ok (ns, cs2) => .ok (n :: ns, cs2)

end

/-- `TemplateParser::new(content).parse()`: run the node loop on the whole
input with fuel that (by `parse_total`) always suffices. -/
def parseTemplate (s : String) : Res (List Node) :=
  match parse (4 * s.toList.length + 5) s.toList with
  | .out => .out
  | .err e => .err e
  | .panic => .panic
  | .ok r => .ok r.1

/-! ## JSON values (`serde_json::Value`), numbers modelled over `Rat` -/

inductive Json
  | null
  | bool (b : Bool)
  | num (q : Rat)
  | str (s : String)
  | arr (elems : List Json)
  | obj (fields : List (String × Json))

/-- Round half away from zero, the semantics of `f64::round`. -/
def roundHalfAway (q : Rat) : Int :=
  if 0 ≤ q then ⌊q + 1 / 2⌋ else -⌊-q + 1 / 2⌋

def padZeros (n : Nat) (s : String) : String :=
  if s.length < n then String.mk (List.replicate (n - s.length) '0') ++ s else s

/-- Fixed-point formatting with `prec` decimal places, the model of the
Rust format specifier with a fixed precision. -/
def fmtFixed (prec : Nat) (q : Rat) : String :=
  let n := roundHalfAway (q * ((10 : Rat) ^ prec))
  (if n < 0 then "-" else "") ++ toString (n.natAbs / 10 ^ prec) ++
    (if prec = 0 then "" else "." ++ padZeros prec (toString (n.natAbs % 10 ^ prec)))

/-- Display of a JSON number: integers print without a decimal point; for
non-integers we print a finite decimal expansion with trailing zeros
trimmed, an abstraction of the shortest round-trip `f64` form. -/
def numDisplay (q : Rat) : String :=
  if q.den = 1 then toString q.num
  else
    let s := fmtFixed 17 q
    let l := s.toList.reverse.dropWhile (· = '0')
    let l := match l with
      | '.' :: t => t
      | x => x
    String.mk l.reverse

def hexStr (n : Nat) : String := String.mk (Nat.toDigits 16 n)

def escapeJsonChar (c : Char) : String :=
  if c = '"' then "\\\""
  else if c = '\\' then "\\\\"
  else if c = '\n' then "\\n"
  else if c = '\r' then "\\r"
  else if c = '\t' then "\\t"
  else if c.toNat < 32 then "\\u" ++ padZeros 4 (hexStr c.toNat)
  else String.mk [c]

def escapeJson (s : String) : String := String.join (s.toList.map escapeJsonChar)

mutual

/-- Compact JSON serialization, the model of `serde_json::Value::to_string`. -/
def jsonToString : Json → String
  | .null => "null"
  | .bool b => if b then "true" else "false"
  | .num q => numDisplay q
  | .str s => "\"" ++ escapeJson s ++ "\""
  | .arr xs => "[" ++ jsonListToString xs ++ "]"
  | .obj fs => "\x7b" ++ jsonFieldsToString fs ++ "\x7d"

def jsonListToString : List Json → String
  | [] => ""
  | [x] => jsonToString x
  | x :: y :: xs => jsonToString x ++ "," ++ jsonListToString (y :: xs)

def jsonFieldsToString : List (String × Json) → String
  | [] => ""
  | [kv] => "\"" ++ escapeJson kv.1 ++ "\":" ++ jsonToString kv.2
  | kv :: y :: xs =>
    "\"" ++ escapeJson kv.1 ++ "\":" ++ jsonToString kv.2 ++ "," ++ jsonFieldsToString (y :: xs)

end

/-! ## Executor (`TemplateExecutor`) -/

/-- `TemplateExecutor::value_to_string`. -/
def value_to_string : Json → String
  | .str s => s
  | .num q => numDisplay q
  | .bool b => if b then "true" else "false"
  | .null => ""
  | v => jsonToString v

def nestedWalk : List String → Json → Option Json
  | [], v => some v
  | k :: rest, .obj fields =>
    match lookupAssoc fields k with
    | some v => nestedWalk rest v
    | none => none
  | _ :: _, _ => none

/-- `TemplateExecutor::resolve_nested_value`. -/
def resolve_nested_value (parts : List String) (vars : List (String × Json)) :
    Option Json :=
  match parts with
  | [] => none
  | root :: rest => (lookupAssoc vars root).bind (nestedWalk rest)

/-- `TemplateExecutor::is_condition_true`. -/
def is_condition_true (condition : String) (vars : List (String × Json)) : Bool :=
  match lookupAssoc vars condition with
  | some (.bool b) => b
  | some .null => false
  | some (.str s) => !s.isEmpty
  | some (.num n) => if n = 0 then false else true
  | some (.arr a) => !a.isEmpty
  | some (.obj o) => !o.isEmpty
  | none => false

/-! ## Locale data (`LocaleData`) -/

inductive Yaml
  | ystr (s : String)
  | ymap (fields : List (String × Yaml))
  | yother

def yamlWalk : List String → Option Yaml → Option Yaml
  | [], cur => cur
  | _ :: _, none => none
  | k :: rest, some (.ymap fields) => yamlWalk rest (lookupAssoc fields k)
  | _ :: _, some _ => none

structure LocaleData where
  locale : String
  strings : List (String × Yaml)

/-- `LocaleData::get_nested_value`. -/
def get_nested_value (strings : List (String × Yaml)) (key : String) : Option Yaml :=
  match splitOnChar '.' key with
  | [] => none
  | k0 :: rest => yamlWalk rest (lookupAssoc strings k0)

/-- `LocaleData::get_string`. -/
def LocaleData.get_string (ld : LocaleData) (key : String) : Option String :=
  match get_nested_value ld.strings key with
  | some (.ystr s) => some s
  | _ => none

/-- The stringification used inside `LocaleData::interpolate` (note: `null`
prints as the JSON text `null` here, unlike `value_to_string`). -/
def interpValueStr : Json → String
  | .str s => s
  | .num q => numDisplay q
  | .bool b => if b then "true" else "false"
  | v => jsonToString v

/-- `LocaleData::interpolate`. -/
def LocaleData.interpolate (ld : LocaleData) (key : String)
    (vs : List (String × Json)) : Except RErr String :=
  match ld.get_string key with
  | none => .error (.i18nKeyNotFound key ld.locale)
  | some template =>
    .ok (vs.foldl (fun result p =>
      result.replace ("\x7b" ++ p.1 ++ "\x7d") (interpValueStr p.2)) template)

/-- The locale store seen by the executor: `LocaleManager::get_locale`
abstracted as a function from locale id to loaded data. -/
structure LocaleStore where
  get_locale : String → Except RErr LocaleData

/-- The executor state that stays fixed during a render: abstract
filesystem, optional locale manager, active locale, include base path. -/
structure ExecEnv where
  fsExists : String → Bool
  fsRead : String → Option String
  locale_manager : Option LocaleStore
  current_locale : String
  template_base_path : String

/-- `PathBuf::join` for the relative include paths that occur here. -/
def joinPath (base p : String) : String := base ++ "/" ++ p

/-! ## Helper functions (`render_helper`, `render_format_number_helper`) -/

def digitsToNat (l : List Char) : Nat := l.foldl (fun n c => n * 10 + (c.toNat - 48)) 0

/-- Decimal fragment of `str::parse::<f64>`, the only part exercised by
template variables in scope. -/
def parseNumStr (s : String) : Option Rat :=
  let sl : Int × List Char :=
    match s.toList with
    | '-' :: t => (-1, t)
    | l => (1, l)
  let ip := sl.2.takeWhile Char.isDigit
  let rest := sl.2.dropWhile Char.isDigit
  if ip.isEmpty then none
  else
    match rest with
    | [] => some ((sl.1 : Rat) * (digitsToNat ip : Rat))
    | '.' :: fp =>
      if !fp.isEmpty && fp.all Char.isDigit then
        some ((sl.1 : Rat) *
          ((digitsToNat ip : Rat) + (digitsToNat fp : Rat) / ((10 : Rat) ^ fp.length)))
      else none
    | _ => none

/-- The saturating float-to-integer cast `as i32` of Rust: values beyond
the 32-bit signed range clamp to the nearest bound. -/
def i32Saturate (n : Int) : Int :=
  if n < -(2 ^ 31) then -(2 ^ 31) else if 2 ^ 31 - 1 < n then 2 ^ 31 - 1 else n

def json_as_f64 : Json → Option Rat
  | .num q => some q
  | _ => none

def json_as_str : Json → Option String
  | .str s => some s
  | _ => none

/-- `TemplateExecutor::render_format_number_helper`. In the percent style
the integral branch prints `rounded_percentage.round() as i32`, where the
`as i32` cast saturates, modelled by `i32Saturate`. -/
def render_format_number_helper (args : List String) (params : List (String × String))
    (vars : List (String × Json)) : Except RErr (Option String) :=
  match args with
  | [] => .ok (some "<!-- format_number helper requires arguments -->")
  | number_arg :: _ =>
    match lookupAssoc vars number_arg with
    | none => .ok (some ("<!-- variable " ++ number_arg ++ " not found -->"))
    | some value =>
      let number_value : Rat :=
        match json_as_f64 value with
        | some n => n
        | none =>
          match json_as_str value with
          | some s => (parseNumStr s).getD 0
          | none => 0
      let style := ((lookupAssoc params "style").map (trim_matches '"')).getD "decimal"
      if style = "percent" then
        let rounded : Rat := (roundHalfAway (number_value * 100 * 10) : Rat) / 10
        if |rounded - (roundHalfAway rounded : Rat)| < 1 / 100 then
          .ok (some (toString (i32Saturate (roundHalfAway rounded)) ++ "%"))
        else .ok (some (fmtFixed 1 rounded ++ "%"))
      else if style = "currency" then
        let currency := ((lookupAssoc params "currency").map (trim_matches '"')).getD "USD"
        if currency = "USD" then .ok (some ("$" ++ fmtFixed 2 number_value))
        else .ok (some (fmtFixed 2 number_value ++ " " ++ currency))
      else if style = "decimal" then
        let precision := ((lookupAssoc params "precision").bind
          (fun p => (trim_matches '"' p).toNat?)).getD 2
        .ok (some (fmtFixed precision number_value))
      else .ok (some (numDisplay number_value))

/-- `TemplateExecutor::render_helper`. -/
def render_helper (name : String) (args : List String) (params : List (String × String))
    (vars : List (String × Json)) : Except RErr (Option String) :=
  if name = "format_number" then render_format_number_helper args params vars
  else .ok (some ("<!-- Unknown helper: " ++ name ++ " -->"))

/-! ## Parameter resolution shared by includes and i18n -/

/-- The non-helper parameter resolution chain (quoted lookup, raw lookup,
nested lookup, literal), shared by `render_include` and `render_i18n`. -/
def includeParamResolve (vars : List (String × Json)) (acc : List (String × Json))
    (param_name param_value : String) : List (String × Json) :=
  let clean_value := trim_matches '"' param_value
  match lookupAssoc vars clean_value with
  | some v => insertAssoc acc param_name v
  | none =>
    match lookupAssoc vars param_value with
    | some v => insertAssoc acc param_name v
    | none =>
      if strContainsChar clean_value '.' then
        match resolve_nested_value (splitOnChar '.' clean_value) vars with
        | some nv => insertAssoc acc param_name nv
        | none => insertAssoc acc param_name (.str clean_value)
      else insertAssoc acc param_name (.str clean_value)

/-- The i18n parameter resolution: helper-call expressions are parsed and
executed first, everything else follows `includeParamResolve`. -/
def i18nParamResolve (vars : List (String × Json)) (acc : List (String × Json))
    (param_name param_value : String) : List (String × Json) :=
  if strStartsWith param_value "plural " || strStartsWith param_value "format_number " then
    match parseTemplate ("\x7b\x7b" ++ param_value ++ "\x7d\x7d") with
    | .ok (Node.helperN n a p :: _) =>
      match render_helper n a p vars with
      | .ok (some result) => insertAssoc acc param_name (.str result)
      | _ => insertAssoc acc param_name (.str param_value)
    | _ => insertAssoc acc param_name (.str param_value)
  else includeParamResolve vars acc param_name param_value

/-- `TemplateExecutor::render_i18n`. -/
def render_i18n (env : ExecEnv) (key : String) (params : List (String × String))
    (vars : List (String × Json)) : Except RErr (Option String) :=
  let interpolation_vars := params.foldl
    (fun acc p => i18nParamResolve vars acc p.1 p.2) []
  match env.locale_manager with
  | some lm =>
    match lm.get_locale env.current_locale with
    | .ok locale_data =>
      match locale_data.get_string key with
      | some template_str =>
        match locale_data.interpolate key interpolation_vars with
        | .ok result => .ok (some result)
        | .error _ => .ok (some template_str)
      | none => .error (.i18nKeyNotFound key env.current_locale)
    | .error e => .error e
  | none => .error (.i18nKeyNotFound key env.current_locale)

/-- The per-item variable context of an `Each` body: `this` bound to the
element plus `this.<property>` bindings for object elements. -/
def eachItemVars (vars : List (String × Json)) (item : Json) : List (String × Json) :=
  let iv := insertAssoc vars "this" item
  match item with
  | .obj fields => fields.foldl (fun m kv => insertAssoc m ("this." ++ kv.1) kv.2) iv
  | _ => iv

def resMapSome : Res String → Res (Option String)
  | .out => .out
  | .err e => .err e
  | .panic => .panic
  | .ok s => .ok (some s)

mutual

/-- `TemplateExecutor::render`: concatenate the rendered nodes. -/
def render (env : ExecEnv) (fuel : Nat) (nodes : List Node)
    (vars : List (String × Json)) (stack : List String) : Res String :=
  match fuel with
  | 0 => .out
  | f + 1 =>
    match nodes with
    | [] => .ok ""
    | n :: rest =>
      match render_node env f n vars stack with
      | .out => .out
      | .err e => .err e
      | .panic => .panic
      | .ok content =>
        match render env f rest vars stack with
        | .out => .out
        | .err e => .err e
        | .panic => .panic
        | .ok restStr => .ok (content.getD "" ++ restStr)

/-- `TemplateExecutor::render_node`. -/
def render_node (env : ExecEnv) (fuel : Nat) (node : Node)
    (vars : List (String × Json)) (stack : List String) : Res (Option String) :=
  match fuel with
  | 0 => .out
  | f + 1 =>
    match node with
    | .text t => .ok (some t)
    | .varN name =>
      match lookupAssoc vars name with
      | some v => .ok (some (value_to_string v))
      | none => .err (.templateVariableNotFound name)
    | .nestedVar parts =>
      match resolve_nested_value parts vars with
      | some v => .ok (some (value_to_string v))
      | none => .err (.templateVariableNotFound (joinSep "." parts))
    | .ifN condition thenC elseC =>
      if is_condition_true condition vars then
        resMapSome (render env f thenC vars stack)
      else
        match elseC with
        | some elseNodes => resMapSome (render env f elseNodes vars stack)
        | none => .ok (some "")
    | .eachN v content =>
      match lookupAssoc vars v with
      | some (.arr items) => resMapSome (render_each env f content items vars stack)
      | some _ => .ok (some "")
      | none => .ok (some "")
    | .switchN v cases =>
      match lookupAssoc vars v with
      | some sv =>
        match cases.find? (fun c => value_to_string sv == c.1) with
        | some c => resMapSome (render env f c.2 vars stack)
        | none => .ok (some "")
      | none => .ok (some "")
    | .ifLocaleN locale thenC elseC =>
      if env.current_locale = locale then resMapSome (render env f thenC vars stack)
      else
        match elseC with
        | some elseNodes => resMapSome (render env f elseNodes vars stack)
        | none => .ok (some "")
    | .includeN path params => render_include env f path params vars stack
    | .i18nN key params =>
      match render_i18n env key params vars with
      | .ok r => .ok r
      | .error e => .err e
    | .helperN name args params =>
      match render_helper name args params vars with
      | .ok r => .ok r
      | .error e => .err e
    | .caseN _ _ => .ok none

/-- The item loop of the `Each` arm of `render_node`. -/
def render_each (env : ExecEnv) (fuel : Nat) (content : List Node)
    (items : List Json) (vars : List (String × Json)) (stack : List String) :
    Res String :=
  match fuel with
  | 0 => .out
  | f + 1 =>
    match items with
    | [] => .ok ""
    | item :: rest =>
      match render env f content (eachItemVars vars item) stack with
      | .out => .out
      | .err e => .err e
      | .panic => .panic
      | .ok s =>
        match render_each env f content rest vars stack with
        | .out => .out
        | .err e => .err e
        | .panic => .panic
        | .ok s2 => .ok (s ++ s2)

/-- `TemplateExecutor::render_include`. -/
def render_include (env : ExecEnv) (fuel : Nat) (path : String)
    (params : List (String × String)) (vars : List (String × Json))
    (stack : List String) : Res (Option String) :=
  match fuel with
  | 0 => .out
  | f + 1 =>
    if stack.contains path then
      .ok (some ("<!-- Circular reference detected: " ++ path ++ " -->"))
    else
      let full_path := joinPath env.template_base_path path
      if !env.fsExists full_path then
        .ok (some ("<!-- Include not found: " ++ path ++ " -->"))
      else
        match env.fsRead full_path with
        | none => .ok (some ("<!-- Error reading include: " ++ path ++ " -->"))
        | some include_content =>
          match parseTemplate include_content with
          | .out => .out
          | .err e => .err e
          | .panic => .panic
          | .ok include_ast =>
            let include_vars := params.foldl
              (fun acc p => includeParamResolve vars acc p.1 p.2) vars
            match render env f include_ast include_vars (stack ++ [path]) with
            | .out => .out
            | .err e => .err e
            | .panic => .panic
            | .ok result => .ok (some result)

end

/-- Parse and render a template source string, the composition used by
`PromptTemplate::render` after frontmatter handling. -/
def renderString (env : ExecEnv) (fuel : Nat) (s : String)
    (vars : List (String × Json)) : Res String :=
  match parseTemplate s with
  | .out => .out
  | .err e => .err e
  | .panic => .panic
  | .ok ast => render env fuel ast vars []

/-! ## Compiled template (`PromptTemplate`) -/

/-- The abstract filesystem a render sees. -/
structure FileSys where
  pathExists : String → Bool
  readFile : String → Option String

/-- The fields of `PromptTemplate` relevant to rendering: the parsed AST,
frontmatter defaults, the required-variable list, frontmatter includes, the
optional locale store and the active locale. -/
structure PromptTemplate where
  ast : List Node
  default_variables : List (String × Json)
  required_variables : List String
  fm_includes : List String
  locale_manager : Option LocaleStore
  current_locale : String

/-- `PromptTemplate::validate_variables`. -/
def validate_variables (t : PromptTemplate) (vars : Json) : Except RErr Unit :=
  if t.required_variables.isEmpty then .ok ()
  else
    match vars with
    | .obj fields =>
      let missing := t.required_variables.filter
        (fun v => !(fields.any (fun p => p.1 == v)))
      if !missing.isEmpty then .error (.requiredVariablesMissing missing)
      else .ok ()
    | _ => .error (.templateParsing "Variables must be provided as a JSON object")

/-- `PromptTemplate::validate_includes`. -/
def validate_includes (t : PromptTemplate) (pathExists : String → Bool)
    (base : String) : Except RErr Unit :=
  match t.fm_includes.find? (fun p => !(pathExists (joinPath base p))) with
  | some p =>
    .error (.templateParsing
      ("Include file not found: " ++ p ++ " (resolved to " ++ joinPath base p ++ ")"))
  | none => .ok ()

/-- `PromptTemplate::render_with_base_path`: validate required variables,
validate includes when a base path is supplied, merge default and supplied
variables, then run the executor over the stored AST. -/
def render_with_base_path (fs : FileSys) (fuel : Nat) (t : PromptTemplate)
    (vars : Json) (base_path : Option String) : Res String :=
  match validate_variables t vars with
  | .error e => .err e
  | .ok _ =>
    match (match base_path with
           | some base => validate_includes t fs.pathExists base
           | none => (.ok () : Except RErr Unit)) with
    | .error e => .err e
    | .ok _ =>
      let provided : List (String × Json) :=
        match vars with
        | .obj fields => fields
        | _ => []
      let all_vars := provided.foldl (fun m kv => insertAssoc m kv.1 kv.2)
        t.default_variables
      let env : ExecEnv :=
        { fsExists := fs.pathExists
          fsRead := fs.readFile
          locale_manager := t.locale_manager
          current_locale := t.current_locale
          template_base_path := base_path.getD "tests/fixtures/templates" }
      render env fuel t.ast all_vars []

/-- `PromptTemplate::render` = `render_with_base_path(vars, None)`. -/
def ptRender (fs : FileSys) (fuel : Nat) (t : PromptTemplate) (vars : Json) :
    Res String :=
  render_with_base_path fs fuel t vars none

/-! ## Spec-side definitions used to state the claims -/

/-- Modelled from the spec wording of section 4.2: boolean as-is, null
false, string non-empty, number nonzero, array and object non-empty. -/
def specTruthy : Json → Bool
  | .bool b => b
  | .null => false
  | .str s => !s.isEmpty
  | .num n => if n = 0 then false else true
  | .arr a => !a.isEmpty
  | .obj o => !o.isEmpty

/-- Modelled from the spec wording of the percent style: multiply by 100,
round to one decimal place, drop a trailing .0 so an integral percentage
prints without a decimal point, append the percent sign. -/
def specPercent (v : Rat) : String :=
  let t := roundHalfAway (1000 * v)
  if t % 10 = 0 then toString (t / 10) ++ "%"
  else fmtFixed 1 ((t : Rat) / 10) ++ "%"

/-- Modelled from the amended claim: the same percent algorithm with the
saturating 32-bit cast applied on the integral branch, matching the
source's `rounded_percentage.round() as i32`. -/
def specPercentSat (v : Rat) : String :=
  let t := roundHalfAway (1000 * v)
  if t % 10 = 0 then toString (i32Saturate (t / 10)) ++ "%"
  else fmtFixed 1 ((t : Rat) / 10) ++ "%"

mutual

/-- Modelled from the spec wording of the C5 failure condition: the root
name is absent, or walking the remaining segments hits a missing key or a
non-object intermediate value. -/
def specWalkFails : List String → Json → Bool
  | [], _ => false
  | k :: rest, .obj fields =>
    match lookupAssoc fields k with
    | some v => specWalkFails rest v
    | none => true
  | _ :: _, _ => true

end

def specNestedFails (parts : List String) (vars : List (String × Json)) : Bool :=
  match parts with
  | [] => true
  | root :: rest =>
    match lookupAssoc vars root with
    | none => true
    | some v => specWalkFails rest v

mutual

/-- No literal text node of the AST contains the expression opener. -/
def nodeClean : Node → Bool
  | .text s => !(strContainsSub s "\x7b\x7b")
  | .ifN _ t e => nodesClean t && (match e with | some l => nodesClean l | none => true)
  | .eachN _ c => nodesClean c
  | .switchN _ cases => casesClean cases
  | .caseN _ c => nodesClean c
  | .ifLocaleN _ t e => nodesClean t && (match e with | some l => nodesClean l | none => true)
  | _ => true

def nodesClean : List Node → Bool
  | [] => true
  | n :: ns => nodeClean n && nodesClean ns

def casesClean : List (String × List Node) → Bool
  | [] => true
  | c :: cs => nodesClean c.2 && casesClean cs

end

def optClean : Option Node → Bool
  | some n => nodeClean n
  | none => true

/-! ## Concrete fixtures used by witnesses and counterexamples -/

/-- An executor environment with no files and no locale store. -/
def emptyEnv : ExecEnv :=
  { fsExists := fun _ => false
    fsRead := fun _ => none
    locale_manager := none
    current_locale := "en"
    template_base_path := "tests/fixtures/templates" }

/-- Environment for the include claims: `a.md` includes itself, `b.md`
refers to an unbound variable. -/
def includeEnv : ExecEnv :=
  { fsExists := fun p => p == "base/a.md" || p == "base/b.md"
    fsRead := fun p =>
      if p == "base/a.md" then some "A:\x7b\x7b> a.md\x7d\x7d"
      else if p == "base/b.md" then some "\x7b\x7bmissingvar\x7d\x7d"
      else none
    locale_manager := none
    current_locale := "en"
    template_base_path := "base" }

/-- An empty filesystem for template-level renders. -/
def emptyFs : FileSys :=
  { pathExists := fun _ => false
    readFile := fun _ => none }

/-- The C4 example template: requires name, role and domain. -/
def c4Template : PromptTemplate :=
  { ast := [.text "Hello ", .varN "name"]
    default_variables := []
    required_variables := ["name", "role", "domain"]
    fm_includes := []
    locale_manager := none
    current_locale := "en" }

/-- A locale store whose every locale carries only the key `greeting`. -/
def c8Store : LocaleStore :=
  { get_locale := fun l => .ok { locale := l, strings := [("greeting", .ystr "Hello")] } }

/-- Environment with the `c8Store` locale store active. -/
def c8Env : ExecEnv :=
  { fsExists := fun _ => false
    fsRead := fun _ => none
    locale_manager := some c8Store
    current_locale := "en"
    template_base_path := "tests/fixtures/templates" }

/-- Environment where `c.md` exists but cannot be read. -/
def unreadableEnv : ExecEnv :=
  { fsExists := fun p => p == "tests/fixtures/templates/c.md"
    fsRead := fun _ => none
    locale_manager := none
    current_locale := "en"
    template_base_path := "tests/fixtures/templates" }

/-! # Claims -/

/-! ## C1: locale fallback resolution -/

/-- C1 counterexample: the claim states that `resolve_locale` returns the
first candidate whose backing directory exists, so that requesting `es-MX`
with only the `es` and default `en` directories present resolves to `es`.
In the code, `resolve_locale` tests each candidate with
`resolve_locale_path`, which itself applies the directory fallback, so the
requested id `es-MX` already succeeds and is returned unchanged. -/
theorem C1_resolve_locale_counterexample :
    resolve_locale esMxManager "es-MX" = some "es-MX" ∧
    resolve_locale esMxManager "es-MX" ≠ some "es" := by
  constructor
  · decide
  · decide

/-- C1 amended: `resolve_locale` returns the first non-empty candidate of
the chain requested → language prefix → default for which
`resolve_locale_path` succeeds, and `resolve_locale_path` itself checks the
candidate directory, its parent directory and the default directory.
Consequently a non-empty requested id whose chain has any existing
directory is returned unchanged; requesting `es-MX` with only `es` and
`en` present yields `es-MX`, whose backing data directory resolves to
`es`. -/
theorem C1_resolve_locale_amended (m : LocaleManager) (requested : String)
    (h1 : requested ≠ "") (h2 : (resolve_locale_path m requested).isSome = true) :
    resolve_locale m requested = some requested ∧
    resolve_locale_path esMxManager "es-MX" = some "es" := by
  refine ⟨?_, by decide⟩
  have he : requested.isEmpty = false := by
    rw [Bool.eq_false_iff]
    intro hc
    exact h1 ((String.isEmpty_iff requested).mp hc)
  unfold resolve_locale
  apply List.find?_cons_of_pos
  simp [he, h2]

/-- C1 witness: the amended theorem applied to the `es-MX` store. -/
theorem C1_resolve_locale_amended_witness :
    resolve_locale esMxManager "es-MX" = some "es-MX" ∧
    resolve_locale_path esMxManager "es-MX" = some "es" :=
  C1_resolve_locale_amended esMxManager "es-MX" (by decide) (by decide)

/-! ## C2: conversation segmentation -/

/-- Helper: with no active role, blank lines are skipped, and the first
line with non-blank content that is not a section header emits the whole
rendered text as a single system message and stops the loop. -/
theorem convLoop_leading_content (full : String) (blanks : List String)
    (l : String) (rest : List String) (hb : ∀ b ∈ blanks, rtrim b = "")
    (hl : rtrim l ≠ "") (hh : strStartsWith (rtrim l) "## " = false) :
    convLoop full (blanks ++ l :: rest) none [] [] = [(Role.system, full)] := by
  induction blanks with
  | nil =>
    simp only [List.nil_append, convLoop, hh]
    simp [hl]
  | cons b bs ih =>
    have hbb : rtrim b = "" := hb b (List.mem_cons_self b bs)
    have hsw : strStartsWith "" "## " = false := rfl
    simp only [List.cons_append, convLoop, hbb, hsw]
    simp only [if_neg (by simp : ¬ ("" : String) ≠ "")]
    simp only [Option.isSome_none, Bool.false_eq_true, if_false]
    exact ih (fun x hx => hb x (List.mem_cons_of_mem b hx))

/-- C2 counterexample: the claim states that non-empty content before the
first header becomes one implicit system segment containing only that
leading content, with the later headed sections still partitioned. The
code instead emits the entire rendered text (headers included) as a single
system message and stops segmenting. -/
theorem C2_conversation_counterexample :
    parse_conversation_content "intro\n## User\nhi" =
      [(Role.system, "intro\n## User\nhi")] ∧
    parse_conversation_content "intro\n## User\nhi" ≠
      [(Role.system, "intro"), (Role.user, "hi")] := by
  constructor
  · decide
  · decide

/-- C2 amended: output is partitioned into role-tagged messages on lines
whose trimmed form is a level-2 header naming a role (case-insensitive);
but whenever a line with non-blank content appears while no role is active
(in particular, before the first header), the code appends the entire
rendered text as one system message and stops, so leading content yields a
single system message containing the whole text rather than only the
leading part. -/
theorem C2_conversation_amended :
    (∀ (content : String) (blanks : List String) (l : String) (rest : List String),
      rustLines content = blanks ++ l :: rest →
      (∀ b ∈ blanks, rtrim b = "") →
      rtrim l ≠ "" →
      strStartsWith (rtrim l) "## " = false →
      parse_conversation_content content = [(Role.system, content)]) ∧
    parse_conversation_content
        "## System\nS1\n## USER\nU1\n## Assistant\nA1\n## Developer\nD1" =
      [(Role.system, "S1"), (Role.user, "U1"),
        (Role.assistant, "A1"), (Role.developer, "D1")] := by
  refine ⟨?_, by decide⟩
  intro content blanks l rest h hb hl hh
  unfold parse_conversation_content
  rw [h]
  exact convLoop_leading_content content blanks l rest hb hl hh

/-- C2 witness: the amended theorem applied to a concrete conversation with
leading content. -/
theorem C2_conversation_amended_witness :
    parse_conversation_content "You are helpful.\n## User\nquestion" =
      [(Role.system, "You are helpful.\n## User\nquestion")] :=
  C2_conversation_amended.1 "You are helpful.\n## User\nquestion"
    [] "You are helpful." ["## User", "question"]
    (by decide) (by intro b hb; cases hb) (by decide) (by decide)

/-! ## C4: missing required variables -/

/-- C4: rendering a template with a variable object that misses at least
one required variable fails with `RequiredVariablesMissing` listing exactly
the missing names, before any rendering begins: the result is this error
for every AST, filesystem, fuel and base path, so no output is produced. -/
theorem C4_required_variables (fs : FileSys) (fuel : Nat) (t : PromptTemplate)
    (fields : List (String × Json)) (base : Option String)
    (hmiss : ∃ v, v ∈ t.required_variables ∧ fields.any (fun p => p.1 == v) = false) :
    render_with_base_path fs fuel t (Json.obj fields) base =
      .err (.requiredVariablesMissing
        (t.required_variables.filter (fun v => !(fields.any (fun p => p.1 == v))))) ∧
    (∀ w, w ∈ t.required_variables.filter (fun v => !(fields.any (fun p => p.1 == v))) ↔
      (w ∈ t.required_variables ∧ fields.any (fun p => p.1 == w) = false)) ∧
    t.required_variables.filter (fun v => !(fields.any (fun p => p.1 == v))) ≠ [] := by
  obtain ⟨v, hv, hvf⟩ := hmiss
  have hne : t.required_variables ≠ [] := by
    intro h
    rw [h] at hv
    cases hv
  have hmem : v ∈ t.required_variables.filter (fun v => !(fields.any (fun p => p.1 == v))) := by
    rw [List.mem_filter]
    exact ⟨hv, by simp [hvf]⟩
  have hfne : t.required_variables.filter (fun v => !(fields.any (fun p => p.1 == v))) ≠ [] := by
    intro h
    rw [h] at hmem
    cases hmem
  refine ⟨?_, ?_, hfne⟩
  · have hie : t.required_variables.isEmpty = false := by
      simpa [List.isEmpty_iff] using hne
    have hmie : (t.required_variables.filter
        (fun v => !(fields.any (fun p => p.1 == v)))).isEmpty = false := by
      simpa [List.isEmpty_iff] using hfne
    unfold render_with_base_path validate_variables
    simp [hie, hmie]
  · intro w
    rw [List.mem_filter]
    simp

/-- C4 witness: required `name, role, domain` with only `role` supplied
fails with exactly `name` and `domain` missing. -/
theorem C4_required_variables_witness :
    render_with_base_path emptyFs 5 c4Template (Json.obj [("role", Json.str "x")]) none =
      .err (.requiredVariablesMissing ["name", "domain"]) :=
  (C4_required_variables emptyFs 5 c4Template [("role", Json.str "x")] none
    ⟨"name", by decide, by decide⟩).1

/-! ## C5: strict variable lookup -/

/-- The spec-side failure condition coincides with the code-side nested
resolution returning nothing. -/
theorem specWalkFails_iff_nestedWalk (rest : List String) (v : Json) :
    specWalkFails rest v = true ↔ nestedWalk rest v = none := by
  induction rest generalizing v with
  | nil => simp [specWalkFails, nestedWalk]
  | cons k rest ih =>
    cases v with
    | obj fields =>
      simp only [specWalkFails, nestedWalk]
      cases lookupAssoc fields k with
      | none => simp
      | some v' => simpa using ih v'
    | null => simp [specWalkFails, nestedWalk]
    | bool b => simp [specWalkFails, nestedWalk]
    | num q => simp [specWalkFails, nestedWalk]
    | str s => simp [specWalkFails, nestedWalk]
    | arr xs => simp [specWalkFails, nestedWalk]

theorem specNestedFails_iff (parts : List String) (vars : List (String × Json)) :
    specNestedFails parts vars = true ↔ resolve_nested_value parts vars = none := by
  cases parts with
  | nil => simp [specNestedFails, resolve_nested_value]
  | cons root rest =>
    simp only [specNestedFails, resolve_nested_value]
    cases lookupAssoc vars root with
    | none => simp
    | some v => simpa using specWalkFails_iff_nestedWalk rest v

/-- C5: a plain variable absent from the context fails the render with
`TemplateVariableNotFound` naming the variable, and a nested variable whose
path has a missing segment or a non-object intermediate value fails with
`TemplateVariableNotFound` naming the dot-joined path. -/
theorem C5_variable_not_found :
    (∀ (env : ExecEnv) (fuel : Nat) (name : String) (vars : List (String × Json))
        (stack : List String),
      lookupAssoc vars name = none →
      render_node env (fuel + 1) (.varN name) vars stack =
        .err (.templateVariableNotFound name)) ∧
    (∀ (env : ExecEnv) (fuel : Nat) (parts : List String) (vars : List (String × Json))
        (stack : List String),
      specNestedFails parts vars = true →
      render_node env (fuel + 1) (.nestedVar parts) vars stack =
        .err (.templateVariableNotFound (joinSep "." parts))) := by
  constructor
  · intro env fuel name vars stack h
    simp [render_node, h]
  · intro env fuel parts vars stack h
    rw [specNestedFails_iff] at h
    simp [render_node, h]

/-- C5 witness: an unbound plain variable, and the nested path `user.name`
against `user` bound to an empty object. -/
theorem C5_variable_not_found_witness :
    render_node emptyEnv 1 (.varN "missing") [] [] =
      .err (.templateVariableNotFound "missing") ∧
    render_node emptyEnv 1 (.nestedVar ["user", "name"])
        [("user", Json.obj [])] [] =
      .err (.templateVariableNotFound "user.name") :=
  ⟨C5_variable_not_found.1 emptyEnv 0 "missing" [] [] rfl,
   C5_variable_not_found.2 emptyEnv 0 ["user", "name"] [("user", Json.obj [])] [] rfl⟩

/-! ## C6: conditional truthiness -/

/-- C6: an `If` node renders its then-branch exactly when the condition
variable is bound to a truthy value in the spec sense (boolean as-is, null
false, string non-empty, number nonzero, array and object non-empty); a
missing condition variable selects the else-branch (empty string when
absent) and never raises an error, unlike plain variable lookup. -/
theorem C6_if_truthiness (env : ExecEnv) (fuel : Nat) (condition : String)
    (thenC : List Node) (elseC : Option (List Node))
    (vars : List (String × Json)) (stack : List String) :
    render_node env (fuel + 1) (.ifN condition thenC elseC) vars stack =
      if (lookupAssoc vars condition).elim false specTruthy then
        resMapSome (render env fuel thenC vars stack)
      else
        match elseC with
        | some elseNodes => resMapSome (render env fuel elseNodes vars stack)
        | none => .ok (some "") := by
  have hc : is_condition_true condition vars =
      (lookupAssoc vars condition).elim false specTruthy := by
    unfold is_condition_true specTruthy
    cases lookupAssoc vars condition with
    | none => rfl
    | some v => cases v <;> rfl
  simp only [render_node, hc]

/-! ## C7: include failure handling -/

/-- C7 counterexample: the claim opens with the statement that include
resolution never aborts the surrounding render; but an error raised while
rendering an existing included file propagates: including `b.md`, whose
content is a single reference to an unbound variable, aborts the render
with `TemplateVariableNotFound`. -/
theorem C7_include_counterexample :
    render_node includeEnv 10 (.includeN "b.md" []) [] [] =
      .err (.templateVariableNotFound "missingvar") := by
  decide

/-- C7 amended: the failure modes of include resolution itself never abort
the render: an include path already on the in-flight stack emits an inline
circular-reference marker without recursing (so a self-including file
terminates), a missing file emits an inline not-found marker, an unreadable
file emits an inline error marker; however, parse or render errors arising
inside an existing included file still propagate. -/
theorem C7_include_amended :
    (∀ (env : ExecEnv) (fuel : Nat) (path : String) (params : List (String × String))
        (vars : List (String × Json)) (stack : List String),
      stack.contains path = true →
      render_node env (fuel + 2) (.includeN path params) vars stack =
        .ok (some ("<!-- Circular reference detected: " ++ path ++ " -->"))) ∧
    (∀ (env : ExecEnv) (fuel : Nat) (path : String) (params : List (String × String))
        (vars : List (String × Json)) (stack : List String),
      stack.contains path = false →
      env.fsExists (joinPath env.template_base_path path) = false →
      render_node env (fuel + 2) (.includeN path params) vars stack =
        .ok (some ("<!-- Include not found: " ++ path ++ " -->"))) ∧
    (∀ (env : ExecEnv) (fuel : Nat) (path : String) (params : List (String × String))
        (vars : List (String × Json)) (stack : List String),
      stack.contains path = false →
      env.fsExists (joinPath env.template_base_path path) = true →
      env.fsRead (joinPath env.template_base_path path) = none →
      render_node env (fuel + 2) (.includeN path params) vars stack =
        .ok (some ("<!-- Error reading include: " ++ path ++ " -->"))) ∧
    renderString includeEnv 10 "\x7b\x7b> a.md\x7d\x7d" [] =
      .ok "A:<!-- Circular reference detected: a.md -->" := by
  refine ⟨?_, ?_, ?_, by decide⟩
  · intro env fuel path params vars stack h
    have h' : path ∈ stack := by simpa using h
    simp [render_node, render_include, h']
  · intro env fuel path params vars stack h h2
    have h' : path ∉ stack := by simpa using h
    simp [render_node, render_include, h', h2]
  · intro env fuel path params vars stack h h2 h3
    have h' : path ∉ stack := by simpa using h
    simp [render_node, render_include, h', h2, h3]

/-- C7 witness: the amended theorem applied to a concrete circular stack, a
missing file and an unreadable file. -/
theorem C7_include_amended_witness :
    render_node emptyEnv 2 (.includeN "a.md" []) [] ["a.md"] =
      .ok (some "<!-- Circular reference detected: a.md -->") ∧
    render_node emptyEnv 2 (.includeN "nofile.md" []) [] [] =
      .ok (some "<!-- Include not found: nofile.md -->") ∧
    render_node unreadableEnv 2 (.includeN "c.md" []) [] [] =
      .ok (some "<!-- Error reading include: c.md -->") :=
  ⟨C7_include_amended.1 emptyEnv 0 "a.md" [] [] ["a.md"] (by decide),
   C7_include_amended.2.1 emptyEnv 0 "nofile.md" [] [] [] (by decide) (by decide),
   C7_include_amended.2.2.1 unreadableEnv 0 "c.md" [] [] [] (by decide) (by decide) (by decide)⟩

/-! ## C8: strict i18n key lookup -/

/-- C8: an i18n node whose key is absent from the string table of the
active locale (as loaded by the locale store), or rendered with no locale
store configured at all, fails with `I18nKeyNotFound` carrying the key and
the active locale; no inline placeholder is produced. -/
theorem C8_i18n_key_not_found :
    (∀ (env : ExecEnv) (fuel : Nat) (key : String) (params : List (String × String))
        (vars : List (String × Json)) (stack : List String),
      env.locale_manager = none →
      render_node env (fuel + 1) (.i18nN key params) vars stack =
        .err (.i18nKeyNotFound key env.current_locale)) ∧
    (∀ (env : ExecEnv) (fuel : Nat) (key : String) (params : List (String × String))
        (vars : List (String × Json)) (stack : List String) (lm : LocaleStore)
        (ld : LocaleData),
      env.locale_manager = some lm →
      lm.get_locale env.current_locale = .ok ld →
      ld.get_string key = none →
      render_node env (fuel + 1) (.i18nN key params) vars stack =
        .err (.i18nKeyNotFound key env.current_locale)) := by
  constructor
  · intro env fuel key params vars stack h
    simp [render_node, render_i18n, h]
  · intro env fuel key params vars stack lm ld h h2 h3
    simp [render_node, render_i18n, h, h2, h3]

/-- C8 witness: the key `missing.key` against a store whose locale table
only carries `greeting`, and the no-store environment. -/
theorem C8_i18n_key_not_found_witness :
    render_node c8Env 1 (.i18nN "missing.key" []) [] [] =
      .err (.i18nKeyNotFound "missing.key" "en") ∧
    render_node emptyEnv 1 (.i18nN "missing.key" []) [] [] =
      .err (.i18nKeyNotFound "missing.key" "en") :=
  ⟨C8_i18n_key_not_found.2 c8Env 0 "missing.key" [] [] []
      c8Store { locale := "en", strings := [("greeting", .ystr "Hello")] }
      rfl rfl rfl,
   C8_i18n_key_not_found.1 emptyEnv 0 "missing.key" [] [] [] rfl⟩

/-! ## C9: format_number percent style -/

theorem roundHalfAway_intCast (k : Int) : roundHalfAway (k : Rat) = k := by
  unfold roundHalfAway
  split
  · rw [show ((k : Rat) + 1 / 2) = (1 / 2 : Rat) + k from add_comm _ _, Int.floor_add_int]
    norm_num
  · rw [show (-(k : Rat) + 1 / 2) = (1 / 2 : Rat) + (-k : Int) from by push_cast; ring,
      Int.floor_add_int]
    norm_num

/-- The near-integer test of the percent branch holds exactly on multiples
of ten (the rounded value is a tenth-integer), and on those the rounded
value is the exact integer quotient. -/
theorem percent_digit_split (t : Int) :
    ((|(t : Rat) / 10 - (roundHalfAway ((t : Rat) / 10) : Rat)| < 1 / 100) ↔ t % 10 = 0) ∧
    (t % 10 = 0 → roundHalfAway ((t : Rat) / 10) = t / 10) := by
  have hdiv : ∀ k : Int, ((10 * k : Int) : Rat) / 10 = (k : Rat) := by
    intro k
    push_cast
    ring
  constructor
  · constructor
    · intro h
      set m := roundHalfAway ((t : Rat) / 10) with hm
      have heq : (t : Rat) / 10 - (m : Rat) = ((t - 10 * m : Int) : Rat) / 10 := by
        push_cast
        ring
      rw [heq] at h
      by_contra hne
      have hne2 : t - 10 * m ≠ 0 := by omega
      have h1 : (1 : Int) ≤ |t - 10 * m| := Int.one_le_abs hne2
      have h1r : (1 : Rat) ≤ |((t - 10 * m : Int) : Rat)| := by
        rw [← Int.cast_abs]
        exact_mod_cast h1
      rw [abs_div] at h
      have : |((t - 10 * m : Int) : Rat)| < 1 / 10 := by
        have h10 : |(10 : Rat)| = 10 := by norm_num
        rw [h10] at h
        linarith
      linarith
    · intro h
      obtain ⟨k, hk⟩ : (10 : Int) ∣ t := by omega
      subst hk
      rw [hdiv k, roundHalfAway_intCast]
      simp
  · intro h
    obtain ⟨k, hk⟩ : (10 : Int) ∣ t := by omega
    subst hk
    rw [hdiv k, roundHalfAway_intCast]
    omega

/-- The percent branch of the helper agrees with the saturating-cast
algorithm for every rational input. -/
theorem format_number_percent_eq (q : Rat) :
    render_format_number_helper ["v"] [("style", "\"percent\"")] [("v", Json.num q)] =
      .ok (some (specPercentSat q)) := by
  have hshape : render_format_number_helper ["v"] [("style", "\"percent\"")]
      [("v", Json.num q)] =
      (if |(roundHalfAway (q * 100 * 10) : Rat) / 10 -
            (roundHalfAway ((roundHalfAway (q * 100 * 10) : Rat) / 10) : Rat)| < 1 / 100
       then .ok (some (toString
         (i32Saturate (roundHalfAway ((roundHalfAway (q * 100 * 10) : Rat) / 10))) ++ "%"))
       else .ok (some (fmtFixed 1 ((roundHalfAway (q * 100 * 10) : Rat) / 10) ++ "%"))) := rfl
  rw [hshape]
  have ht : q * 100 * 10 = 1000 * q := by ring
  rw [ht]
  unfold specPercentSat
  obtain ⟨hiff, hint⟩ := percent_digit_split (roundHalfAway (1000 * q))
  by_cases hd : roundHalfAway (1000 * q) % 10 = 0
  · rw [if_pos (hiff.mpr hd), if_pos hd, hint hd]
  · rw [if_neg (fun hc => hd (hiff.mp hc)), if_neg hd]

theorem specPercentSat_three_quarters : specPercentSat (3 / 4) = "75%" := by
  simp only [specPercentSat]
  rw [show (1000 : Rat) * (3 / 4) = ((750 : Int) : Rat) by norm_num, roundHalfAway_intCast]
  decide

theorem specPercentSat_847 : specPercentSat (847 / 1000) = "84.7%" := by
  simp only [specPercentSat]
  rw [show (1000 : Rat) * (847 / 1000) = ((847 : Int) : Rat) by norm_num, roundHalfAway_intCast]
  rw [if_neg (by decide : ¬((847 : Int) % 10 = 0))]
  unfold fmtFixed
  rw [show ((847 : Int) : Rat) / 10 * (10 : Rat) ^ (1 : Nat) = ((847 : Int) : Rat) by
    push_cast
    ring, roundHalfAway_intCast]
  decide

/-- At v = 21474837 the rounded percentage is 2147483700, beyond the 32-bit
range, so the saturating cast clamps it to 2147483647. -/
theorem specPercentSat_saturation : specPercentSat 21474837 = "2147483647%" := by
  simp only [specPercentSat]
  rw [show (1000 : Rat) * 21474837 = ((21474837000 : Int) : Rat) by norm_num,
    roundHalfAway_intCast]
  decide

/-- The unsaturated algorithm prints the full rounded value at the same
input. -/
theorem specPercent_saturation : specPercent 21474837 = "2147483700%" := by
  simp only [specPercent]
  rw [show (1000 : Rat) * 21474837 = ((21474837000 : Int) : Rat) by norm_num,
    roundHalfAway_intCast]
  decide

/-- C9 is corrected: the integral percent branch prints
`rounded_percentage.round() as i32`, and the `as i32` cast saturates at
2^31 - 1. At v = 21474837 the program prints 2147483647 percent, while the
round-then-print algorithm without the cast, as the claim states it, gives
2147483700 percent. -/
theorem C9_format_number_counterexample :
    render_format_number_helper ["v"] [("style", "\"percent\"")]
        [("v", Json.num 21474837)] = .ok (some "2147483647%") ∧
    specPercent 21474837 = "2147483700%" ∧
    ("2147483647%" : String) ≠ "2147483700%" := by
  refine ⟨?_, specPercent_saturation, by decide⟩
  rw [format_number_percent_eq 21474837, specPercentSat_saturation]

/-- C9 (amended): the percent style multiplies the bound value by 100,
rounds to one decimal place (half away from zero, as `f64::round`), prints
an integral percentage without a decimal point after a saturating cast to
the signed 32-bit range, prints a non-integral one with exactly one decimal,
and appends the percent sign; in particular 0.75 renders 75 percent and
0.847 renders 84.7 percent. -/
theorem C9_format_number_percent_amended :
    (∀ q : Rat,
      render_format_number_helper ["v"] [("style", "\"percent\"")] [("v", Json.num q)] =
        .ok (some (specPercentSat q))) ∧
    renderString emptyEnv 5 "\x7b\x7bformat_number v style=\"percent\"\x7d\x7d"
        [("v", Json.num (3 / 4))] = .ok "75%" ∧
    renderString emptyEnv 5 "\x7b\x7bformat_number v style=\"percent\"\x7d\x7d"
        [("v", Json.num (847 / 1000))] = .ok "84.7%" := by
  have hp : parseTemplate "\x7b\x7bformat_number v style=\"percent\"\x7d\x7d" =
      .ok [Node.helperN "format_number" ["v"] [("style", "\"percent\"")]] := rfl
  refine ⟨format_number_percent_eq, ?_, ?_⟩
  · unfold renderString
    rw [hp]
    simp only [render, render_node, render_helper, if_pos rfl]
    rw [format_number_percent_eq (3 / 4), specPercentSat_three_quarters]
    rfl
  · unfold renderString
    rw [hp]
    simp only [render, render_node, render_helper, if_pos rfl]
    rw [format_number_percent_eq (847 / 1000), specPercentSat_847]
    rfl

/-! ## C3 and C10: parser marker hygiene and totality -/

theorem findSub_some_le (pat hay : List Char) (i : Nat)
    (h : findSub pat hay = some i) : i + pat.length ≤ hay.length := by
  induction hay generalizing i with
  | nil =>
    unfold findSub at h
    split at h
    · rename_i hp
      cases h
      simpa using List.IsPrefix.length_le (List.isPrefixOf_iff_prefix.mp hp)
    · cases h
  | cons c t ih =>
    unfold findSub at h
    split at h
    · rename_i hp
      cases h
      simpa using List.IsPrefix.length_le (List.isPrefixOf_iff_prefix.mp hp)
    · cases hft : findSub pat t with
      | none => rw [hft] at h; cases h
      | some j =>
        rw [hft] at h
        simp only [Option.map_some'] at h
        cases h
        have := ih j hft
        simp only [List.length_cons]
        omega

theorem findSub_zero_prefix (pat hay : List Char)
    (h : findSub pat hay = some 0) : pat.isPrefixOf hay = true := by
  cases hay with
  | nil =>
    unfold findSub at h
    split at h
    · assumption
    · cases h
  | cons c t =>
    unfold findSub at h
    split at h
    · assumption
    · cases hft : findSub pat t with
      | none => rw [hft] at h; cases h
      | some j => rw [hft] at h; simp at h

theorem findSub_take_none (pat : List Char) (hne : pat ≠ []) (hay : List Char) (i : Nat)
    (h : findSub pat hay = some i) : findSub pat (hay.take i) = none := by
  have hemp : findSub pat [] = none := by
    unfold findSub
    rw [if_neg]
    intro hc
    exact hne (List.prefix_nil.mp (List.isPrefixOf_iff_prefix.mp hc))
  induction hay generalizing i with
  | nil => simpa [List.take_nil] using hemp
  | cons c t ih =>
    unfold findSub at h
    split at h
    · cases h
      simpa [List.take_zero] using hemp
    · rename_i hp
      cases hft : findSub pat t with
      | none => rw [hft] at h; cases h
      | some j =>
        rw [hft] at h
        simp only [Option.map_some'] at h
        cases h
        rw [List.take_succ_cons]
        unfold findSub
        rw [if_neg (fun hpc => hp (List.isPrefixOf_iff_prefix.mpr
          ((List.isPrefixOf_iff_prefix.mp hpc).trans
            (by rw [← List.take_succ_cons]; exact List.take_prefix _ _)))),
          ih j hft]
        rfl

/-- Length monotonicity and progress of the parser: every function only
consumes input, and `parse_next_node` strictly consumes whenever it
produces a node on non-empty input. -/
theorem parse_len_le (fuel : Nat) :
    (∀ cs r cs2, parse fuel cs = .ok (r, cs2) → cs2.length ≤ cs.length) ∧
    (∀ cs n cs2, parse_next_node fuel cs = .ok (n, cs2) →
      cs2.length ≤ cs.length ∧ (n.isSome = true → cs ≠ [] → cs2.length < cs.length)) ∧
    (∀ cs n cs2, parse_template_expression fuel cs = .ok (n, cs2) → cs2.length ≤ cs.length) ∧
    (∀ c cs n cs2, parse_if_block fuel c cs = .ok (n, cs2) → cs2.length ≤ cs.length) ∧
    (∀ v cs n cs2, parse_each_block fuel v cs = .ok (n, cs2) → cs2.length ≤ cs.length) ∧
    (∀ v a cs n cs2, parse_switch_block fuel v a cs = .ok (n, cs2) → cs2.length ≤ cs.length) ∧
    (∀ l cs n cs2, parse_if_locale_block fuel l cs = .ok (n, cs2) → cs2.length ≤ cs.length) ∧
    (∀ ts cs ns cs2, parse_block_until fuel ts cs = .ok (ns, cs2) → cs2.length ≤ cs.length) := by
  induction fuel with
  | zero =>
    refine ⟨?_, ?_, ?_, ?_, ?_, ?_, ?_, ?_⟩
    · intro cs r cs2 h
      rw [parse] at h
      cases h
    · intro cs n cs2 h
      rw [parse_next_node] at h
      cases h
    · intro cs n cs2 h
      rw [parse_template_expression] at h
      cases h
    · intro c cs n cs2 h
      rw [parse_if_block] at h
      cases h
    · intro v cs n cs2 h
      rw [parse_each_block] at h
      cases h
    · intro v a cs n cs2 h
      rw [parse_switch_block] at h
      cases h
    · intro l cs n cs2 h
      rw [parse_if_locale_block] at h
      cases h
    · intro ts cs ns cs2 h
      rw [parse_block_until] at h
      cases h
  | succ f ih =>
    obtain ⟨ihP, ihN, ihE, ihIf, ihEach, ihSw, ihLoc, ihB⟩ := ih
    refine ⟨?_, ?_, ?_, ?_, ?_, ?_, ?_, ?_⟩
    · -- parse
      intro cs r cs2 h
      rw [parse] at h
      split at h
      next => cases h; exact Nat.le_refl _
      next =>
        split at h
        next => cases h
        next => cases h
        next => cases h
        next =>
          rename_i cs1 heq
          cases h
          exact (ihN cs none cs2 heq).1
        next =>
          rename_i n cs1 heq
          split at h
          next => cases h
          next => cases h
          next => cases h
          next =>
            rename_i ns cs3 heq2
            cases h
            exact Nat.le_trans (ihP cs1 ns cs2 heq2) (ihN cs (some n) cs1 heq).1
    · -- parse_next_node
      intro cs n cs2 h
      rw [parse_next_node] at h
      split at h
      next =>
        rename_i start heq
        split at h
        next hpos =>
          cases h
          have hd : (cs.drop start).length = cs.length - start := List.length_drop _ _
          refine ⟨by omega, fun _ hne => ?_⟩
          have hlen : 0 < cs.length := List.length_pos.mpr hne
          omega
        next hpos =>
          have hz : start = 0 := by omega
          subst hz
          have hpre := findSub_zero_prefix _ _ heq
          have h2 : 2 ≤ cs.length := by
            have := List.IsPrefix.length_le (List.isPrefixOf_iff_prefix.mp hpre)
            simpa [tokOpen] using this
          have hle := ihE (cs.drop 2) n cs2 h
          rw [List.length_drop] at hle
          exact ⟨by omega, fun _ _ => by omega⟩
      next =>
        split at h
        next =>
          cases h
          refine ⟨Nat.le_refl _, fun hs _ => ?_⟩
          simp at hs
        next =>
          cases h
          refine ⟨Nat.zero_le _, fun _ hne2 => List.length_pos.mpr hne2⟩
    · -- parse_template_expression
      intro cs n cs2 h
      rw [parse_template_expression] at h
      split at h
      next => cases h
      next =>
        rename_i e heq
        have he2 : e + 2 ≤ cs.length := by
          have := findSub_some_le _ _ _ heq
          simpa [tokClose] using this
        have hd : (cs.drop (e + 2)).length = cs.length - (e + 2) := List.length_drop _ _
        split at h
        next =>
          have := ihIf _ _ _ _ h
          omega
        next =>
          split at h
          next =>
            have := ihEach _ _ _ _ h
            omega
          next =>
            split at h
            next =>
              have := ihSw _ _ _ _ _ h
              omega
            next =>
              split at h
              next =>
                have := ihLoc _ _ _ _ h
                omega
              next =>
                split at h
                next =>
                  split at h
                  next => cases h
                  next =>
                    cases h
                    omega
                next =>
                  split at h
                  next =>
                    split at h
                    next => cases h
                    next =>
                      cases h
                      omega
                  next =>
                    split at h
                    next =>
                      split at h
                      next => cases h
                      next =>
                        cases h
                        omega
                    next =>
                      split at h
                      next =>
                        cases h
                        omega
                      next =>
                        cases h
                        omega
    · -- parse_if_block
      intro c cs n cs2 h
      rw [parse_if_block] at h
      split at h
      next => cases h
      next => cases h
      next => cases h
      next =>
        rename_i thenC cs1 heq
        have h1 := ihB _ _ _ _ heq
        split at h
        next =>
          split at h
          next => cases h
          next => cases h
          next => cases h
          next =>
            rename_i elseC cs3 heq2
            have h2 := ihB _ _ _ _ heq2
            rw [List.length_drop] at h2
            cases h
            split
            next => rw [List.length_drop]; omega
            next => omega
        next =>
          cases h
          split
          next => rw [List.length_drop]; omega
          next => omega
    · -- parse_each_block
      intro v cs n cs2 h
      rw [parse_each_block] at h
      split at h
      next => cases h
      next => cases h
      next => cases h
      next =>
        rename_i content cs1 heq
        have h1 := ihB _ _ _ _ heq
        cases h
        split
        next => rw [List.length_drop]; omega
        next => omega
    · -- parse_switch_block
      intro v a cs n cs2 h
      rw [parse_switch_block] at h
      split at h
      next => cases h; exact Nat.le_refl _
      next =>
        split at h
        next =>
          cases h
          rw [List.length_drop]
          omega
        next =>
          split at h
          next =>
            rename_i cstart heq
            split at h
            next =>
              rename_i cend heq2
              split at h
              next => cases h
              next => cases h
              next => cases h
              next =>
                rename_i content cs3 heq3
                have h3 := ihB _ _ _ _ heq3
                have h4 := ihSw _ _ _ _ _ h
                have h5 : (if tCaseEnd.isPrefixOf cs3 then cs3.drop 9 else cs3).length ≤
                    cs3.length := by
                  split
                  next => rw [List.length_drop]; omega
                  next => omega
                simp only [List.length_drop] at h3
                omega
            next =>
              cases h
              rw [List.length_drop]
              omega
          next =>
            split at h
            next =>
              split at h
              next => cases h
              next =>
                have := ihSw _ _ _ _ _ h
                rw [List.length_drop] at this
                omega
            next =>
              cases h
              exact Nat.le_refl _
    · -- parse_if_locale_block
      intro l cs n cs2 h
      rw [parse_if_locale_block] at h
      split at h
      next => cases h
      next => cases h
      next => cases h
      next =>
        rename_i thenC cs1 heq
        have h1 := ihB _ _ _ _ heq
        split at h
        next =>
          split at h
          next => cases h
          next => cases h
          next => cases h
          next =>
            rename_i elseC cs3 heq2
            have h2 := ihB _ _ _ _ heq2
            rw [List.length_drop] at h2
            cases h
            split
            next => rw [List.length_drop]; omega
            next => omega
        next =>
          cases h
          split
          next => rw [List.length_drop]; omega
          next => omega
    · -- parse_block_until
      intro ts cs ns cs2 h
      rw [parse_block_until] at h
      split at h
      next => cases h; exact Nat.le_refl _
      next =>
        split at h
        next => cases h; exact Nat.le_refl _
        next =>
          split at h
          next => cases h
          next => cases h
          next => cases h
          next =>
            rename_i cs1 heq
            cases h
            exact (ihN _ _ _ heq).1
          next =>
            rename_i n cs1 heq
            split at h
            next => cases h
            next => cases h
            next => cases h
            next =>
              rename_i ns2 cs3 heq2
              cases h
              exact Nat.le_trans (ihB _ _ _ _ heq2) (ihN _ _ _ heq).1

theorem subTrans {l1 l2 l3 : List Char} (h1 : l1 ⊆ l2) (h2 : l2 ⊆ l3) : l1 ⊆ l3 := by
  intro x hx
  exact h2 (h1 hx)

/-- Every parser function returns a remaining input drawn from its input:
the parsing state only ever moves forward. -/
theorem parse_subset (fuel : Nat) :
    (∀ cs r cs2, parse fuel cs = .ok (r, cs2) → cs2 ⊆ cs) ∧
    (∀ cs n cs2, parse_next_node fuel cs = .ok (n, cs2) → cs2 ⊆ cs) ∧
    (∀ cs n cs2, parse_template_expression fuel cs = .ok (n, cs2) → cs2 ⊆ cs) ∧
    (∀ c cs n cs2, parse_if_block fuel c cs = .ok (n, cs2) → cs2 ⊆ cs) ∧
    (∀ v cs n cs2, parse_each_block fuel v cs = .ok (n, cs2) → cs2 ⊆ cs) ∧
    (∀ v a cs n cs2, parse_switch_block fuel v a cs = .ok (n, cs2) → cs2 ⊆ cs) ∧
    (∀ l cs n cs2, parse_if_locale_block fuel l cs = .ok (n, cs2) → cs2 ⊆ cs) ∧
    (∀ ts cs ns cs2, parse_block_until fuel ts cs = .ok (ns, cs2) → cs2 ⊆ cs) := by
  induction fuel with
  | zero =>
    refine ⟨?_, ?_, ?_, ?_, ?_, ?_, ?_, ?_⟩
    · intro cs r cs2 h
      rw [parse] at h
      cases h
    · intro cs n cs2 h
      rw [parse_next_node] at h
      cases h
    · intro cs n cs2 h
      rw [parse_template_expression] at h
      cases h
    · intro c cs n cs2 h
      rw [parse_if_block] at h
      cases h
    · intro v cs n cs2 h
      rw [parse_each_block] at h
      cases h
    · intro v a cs n cs2 h
      rw [parse_switch_block] at h
      cases h
    · intro l cs n cs2 h
      rw [parse_if_locale_block] at h
      cases h
    · intro ts cs ns cs2 h
      rw [parse_block_until] at h
      cases h
  | succ f ih =>
    obtain ⟨ihP, ihN, ihE, ihIf, ihEach, ihSw, ihLoc, ihB⟩ := ih
    refine ⟨?_, ?_, ?_, ?_, ?_, ?_, ?_, ?_⟩
    · -- parse
      intro cs r cs2 h
      rw [parse] at h
      split at h
      next => cases h; exact List.Subset.refl _
      next =>
        split at h
        next => cases h
        next => cases h
        next => cases h
        next =>
          rename_i cs1 heq
          cases h
          exact ihN cs none cs2 heq
        next =>
          rename_i n cs1 heq
          split at h
          next => cases h
          next => cases h
          next => cases h
          next =>
            rename_i ns cs3 heq2
            cases h
            exact subTrans (ihP cs1 ns cs2 heq2) (ihN cs (some n) cs1 heq)
    · -- parse_next_node
      intro cs n cs2 h
      rw [parse_next_node] at h
      split at h
      next =>
        rename_i start heq
        split at h
        next hpos =>
          cases h
          exact List.drop_subset _ _
        next hpos =>
          exact subTrans (ihE (cs.drop 2) n cs2 h) (List.drop_subset _ _)
      next =>
        split at h
        next => cases h; exact List.Subset.refl _
        next => cases h; exact List.nil_subset _
    · -- parse_template_expression
      intro cs n cs2 h
      rw [parse_template_expression] at h
      split at h
      next => cases h
      next =>
        rename_i e heq
        split at h
        next => exact subTrans (ihIf _ _ _ _ h) (List.drop_subset _ _)
        next =>
          split at h
          next => exact subTrans (ihEach _ _ _ _ h) (List.drop_subset _ _)
          next =>
            split at h
            next => exact subTrans (ihSw _ _ _ _ _ h) (List.drop_subset _ _)
            next =>
              split at h
              next => exact subTrans (ihLoc _ _ _ _ h) (List.drop_subset _ _)
              next =>
                split at h
                next =>
                  split at h
                  next => cases h
                  next =>
                    cases h
                    exact List.drop_subset _ _
                next =>
                  split at h
                  next =>
                    split at h
                    next => cases h
                    next =>
                      cases h
                      exact List.drop_subset _ _
                  next =>
                    split at h
                    next =>
                      split at h
                      next => cases h
                      next =>
                        cases h
                        exact List.drop_subset _ _
                    next =>
                      split at h
                      next =>
                        cases h
                        exact List.drop_subset _ _
                      next =>
                        cases h
                        exact List.drop_subset _ _
    · -- parse_if_block
      intro c cs n cs2 h
      rw [parse_if_block] at h
      split at h
      next => cases h
      next => cases h
      next => cases h
      next =>
        rename_i thenC cs1 heq
        have h1 := ihB _ _ _ _ heq
        split at h
        next =>
          split at h
          next => cases h
          next => cases h
          next => cases h
          next =>
            rename_i elseC cs3 heq2
            have h2 : cs3 ⊆ cs :=
              subTrans (ihB _ _ _ _ heq2) (subTrans (List.drop_subset _ _) h1)
            cases h
            split
            next => exact subTrans (List.drop_subset _ _) h2
            next => exact h2
        next =>
          cases h
          split
          next => exact subTrans (List.drop_subset _ _) h1
          next => exact h1
    · -- parse_each_block
      intro v cs n cs2 h
      rw [parse_each_block] at h
      split at h
      next => cases h
      next => cases h
      next => cases h
      next =>
        rename_i content cs1 heq
        have h1 := ihB _ _ _ _ heq
        cases h
        split
        next => exact subTrans (List.drop_subset _ _) h1
        next => exact h1
    · -- parse_switch_block
      intro v a cs n cs2 h
      rw [parse_switch_block] at h
      split at h
      next => cases h; exact List.Subset.refl _
      next =>
        split at h
        next =>
          cases h
          exact List.drop_subset _ _
        next =>
          split at h
          next =>
            rename_i cstart heq
            split at h
            next =>
              rename_i cend heq2
              split at h
              next => cases h
              next => cases h
              next => cases h
              next =>
                rename_i content cs3 heq3
                have h3 : cs3 ⊆ cs :=
                  subTrans (ihB _ _ _ _ heq3)
                    (subTrans (List.drop_subset _ _) (List.drop_subset _ _))
                refine subTrans (ihSw _ _ _ _ _ h) ?_
                split
                next => exact subTrans (List.drop_subset _ _) h3
                next => exact h3
            next =>
              cases h
              exact List.drop_subset _ _
          next =>
            split at h
            next =>
              split at h
              next => cases h
              next => exact subTrans (ihSw _ _ _ _ _ h) (List.drop_subset _ _)
            next =>
              cases h
              exact List.Subset.refl _
    · -- parse_if_locale_block
      intro l cs n cs2 h
      rw [parse_if_locale_block] at h
      split at h
      next => cases h
      next => cases h
      next => cases h
      next =>
        rename_i thenC cs1 heq
        have h1 := ihB _ _ _ _ heq
        split at h
        next =>
          split at h
          next => cases h
          next => cases h
          next => cases h
          next =>
            rename_i elseC cs3 heq2
            have h2 : cs3 ⊆ cs :=
              subTrans (ihB _ _ _ _ heq2) (subTrans (List.drop_subset _ _) h1)
            cases h
            split
            next => exact subTrans (List.drop_subset _ _) h2
            next => exact h2
        next =>
          cases h
          split
          next => exact subTrans (List.drop_subset _ _) h1
          next => exact h1
    · -- parse_block_until
      intro ts cs ns cs2 h
      rw [parse_block_until] at h
      split at h
      next => cases h; exact List.Subset.refl _
      next =>
        split at h
        next => cases h; exact List.Subset.refl _
        next =>
          split at h
          next => cases h
          next => cases h
          next => cases h
          next =>
            rename_i cs1 heq
            cases h
            exact ihN _ _ _ heq
          next =>
            rename_i n cs1 heq
            split at h
            next => cases h
            next => cases h
            next => cases h
            next =>
              rename_i ns2 cs3 heq2
              cases h
              exact subTrans (ihB _ _ _ _ heq2) (ihN _ _ _ heq)

/-- With fuel exceeding four times the remaining input length (plus a small
constant), no parser function runs out of fuel: parsing always returns a
definitive result. -/
theorem parse_no_out : ∀ fuel : Nat,
    (∀ cs, 4 * cs.length + 3 < fuel → parse fuel cs ≠ .out) ∧
    (∀ cs, 4 * cs.length + 1 < fuel → parse_next_node fuel cs ≠ .out) ∧
    (∀ cs, 4 * cs.length < fuel → parse_template_expression fuel cs ≠ .out) ∧
    (∀ c cs, 4 * cs.length + 3 < fuel → parse_if_block fuel c cs ≠ .out) ∧
    (∀ v cs, 4 * cs.length + 3 < fuel → parse_each_block fuel v cs ≠ .out) ∧
    (∀ v a cs, 4 * cs.length + 3 < fuel → parse_switch_block fuel v a cs ≠ .out) ∧
    (∀ l cs, 4 * cs.length + 3 < fuel → parse_if_locale_block fuel l cs ≠ .out) ∧
    (∀ ts cs, 4 * cs.length + 2 < fuel → parse_block_until fuel ts cs ≠ .out) := by
  intro fuel
  induction fuel using Nat.strong_induction_on with
  | _ fuel ih =>
    cases fuel with
    | zero =>
      refine ⟨?_, ?_, ?_, ?_, ?_, ?_, ?_, ?_⟩ <;> intros <;> omega
    | succ f =>
      obtain ⟨jP, jN, jE, jIf, jEach, jSw, jLoc, jB⟩ := ih f (Nat.lt_succ_self f)
      obtain ⟨lP, lN, lE, lIf, lEach, lSw, lLoc, lB⟩ := parse_len_le f
      refine ⟨?_, ?_, ?_, ?_, ?_, ?_, ?_, ?_⟩
      · -- parse
        intro cs hr
        rw [parse]
        split
        next => simp
        next hEmp =>
          have hne : cs ≠ [] := by
            intro hc
            subst hc
            simp at hEmp
          have hpos : 0 < cs.length := List.length_pos.mpr hne
          split
          next heq => exact absurd heq (jN cs (by omega))
          next => simp
          next => simp
          next => simp
          next n cs1 heq =>
            split
            next heq2 =>
              have hlt := (lN cs (some n) cs1 heq).2 (by simp) hne
              exact absurd heq2 (jP cs1 (by omega))
            next => simp
            next => simp
            next => simp
      · -- parse_next_node
        intro cs hr
        rw [parse_next_node]
        split
        next start heq =>
          split
          next => simp
          next hpos =>
            have hz : start = 0 := by omega
            subst hz
            have hpre := findSub_zero_prefix _ _ heq
            have h2 : 2 ≤ cs.length := by
              have := List.IsPrefix.length_le (List.isPrefixOf_iff_prefix.mp hpre)
              simpa [tokOpen] using this
            exact jE (cs.drop 2) (by rw [List.length_drop]; omega)
        next =>
          split
          next => simp
          next => simp
      · -- parse_template_expression
        intro cs hr
        rw [parse_template_expression]
        split
        next => simp
        next e heq =>
          have he2 : e + 2 ≤ cs.length := by
            have := findSub_some_le _ _ _ heq
            simpa [tokClose] using this
          have hd : (cs.drop (e + 2)).length = cs.length - (e + 2) := List.length_drop _ _
          split
          next => exact jIf _ _ (by omega)
          next =>
            split
            next => exact jEach _ _ (by omega)
            next =>
              split
              next => exact jSw _ _ _ (by omega)
              next =>
                split
                next => exact jLoc _ _ (by omega)
                next =>
                  split
                  next =>
                    split
                    next => simp
                    next => simp
                  next =>
                    split
                    next =>
                      split
                      next => simp
                      next => simp
                    next =>
                      split
                      next =>
                        split
                        next => simp
                        next => simp
                      next =>
                        split
                        next => simp
                        next => simp
      · -- parse_if_block
        intro c cs hr
        rw [parse_if_block]
        split
        next heq => exact absurd heq (jB [tElse, tIfEnd] cs (by omega))
        next => simp
        next => simp
        next thenC cs1 heq =>
          have h1 := lB _ _ _ _ heq
          split
          next =>
            split
            next heq2 =>
              exact absurd heq2 (jB [tIfEnd] (cs1.drop 8) (by rw [List.length_drop]; omega))
            next => simp
            next => simp
            next => simp
          next => simp
      · -- parse_each_block
        intro v cs hr
        rw [parse_each_block]
        split
        next heq => exact absurd heq (jB [tEachEnd] cs (by omega))
        next => simp
        next => simp
        next => simp
      · -- parse_switch_block
        intro v a cs hr
        rw [parse_switch_block]
        split
        next => simp
        next hEmp =>
          have hne : cs ≠ [] := by
            intro hc
            subst hc
            simp at hEmp
          have hpos : 0 < cs.length := List.length_pos.mpr hne
          split
          next => simp
          next =>
            split
            next cstart heq =>
              split
              next cend heq2 =>
                split
                next heq3 =>
                  refine absurd heq3 (jB [tCaseEnd] _ ?_)
                  simp only [List.length_drop]
                  omega
                next => simp
                next => simp
                next content cs3 heq3 =>
                  have h3 := lB _ _ _ _ heq3
                  simp only [List.length_drop] at h3
                  have h5 : (if tCaseEnd.isPrefixOf cs3 then cs3.drop 9 else cs3).length ≤
                      cs3.length := by
                    split
                    next => rw [List.length_drop]; omega
                    next => omega
                  exact jSw _ _ _ (by omega)
              next => simp
            next heq =>
              split
              next c hc =>
                split
                next => simp
                next => exact jSw _ _ _ (by rw [List.length_drop]; omega)
              next => simp
      · -- parse_if_locale_block
        intro l cs hr
        rw [parse_if_locale_block]
        split
        next heq => exact absurd heq (jB [tElse, tIfLocaleEnd] cs (by omega))
        next => simp
        next => simp
        next thenC cs1 heq =>
          have h1 := lB _ _ _ _ heq
          split
          next =>
            split
            next heq2 =>
              exact absurd heq2 (jB [tIfLocaleEnd] (cs1.drop 8) (by rw [List.length_drop]; omega))
            next => simp
            next => simp
            next => simp
          next => simp
      · -- parse_block_until
        intro ts cs hr
        rw [parse_block_until]
        split
        next => simp
        next hEmp =>
          have hne : cs ≠ [] := by
            intro hc
            subst hc
            simp at hEmp
          have hpos : 0 < cs.length := List.length_pos.mpr hne
          split
          next => simp
          next =>
            split
            next heq => exact absurd heq (jN cs (by omega))
            next => simp
            next => simp
            next => simp
            next n cs1 heq =>
              split
              next heq2 =>
                have hlt := (lN cs (some n) cs1 heq).2 (by simp) hne
                exact absurd heq2 (jB ts cs1 (by omega))
              next => simp
              next => simp
              next => simp

/-- On input whose characters are all single-byte, no parser function
panics: the one-byte advance in the switch scanner is then always a
one-character advance. -/
theorem parse_no_panic : ∀ fuel : Nat,
    (∀ cs, (∀ c ∈ cs, c.utf8Size = 1) → parse fuel cs ≠ .panic) ∧
    (∀ cs, (∀ c ∈ cs, c.utf8Size = 1) → parse_next_node fuel cs ≠ .panic) ∧
    (∀ cs, (∀ c ∈ cs, c.utf8Size = 1) → parse_template_expression fuel cs ≠ .panic) ∧
    (∀ c cs, (∀ x ∈ cs, x.utf8Size = 1) → parse_if_block fuel c cs ≠ .panic) ∧
    (∀ v cs, (∀ c ∈ cs, c.utf8Size = 1) → parse_each_block fuel v cs ≠ .panic) ∧
    (∀ v a cs, (∀ c ∈ cs, c.utf8Size = 1) → parse_switch_block fuel v a cs ≠ .panic) ∧
    (∀ l cs, (∀ c ∈ cs, c.utf8Size = 1) → parse_if_locale_block fuel l cs ≠ .panic) ∧
    (∀ ts cs, (∀ c ∈ cs, c.utf8Size = 1) → parse_block_until fuel ts cs ≠ .panic) := by
  intro fuel
  induction fuel with
  | zero =>
    refine ⟨?_, ?_, ?_, ?_, ?_, ?_, ?_, ?_⟩
    · intro cs hcs
      rw [parse]
      simp
    · intro cs hcs
      rw [parse_next_node]
      simp
    · intro cs hcs
      rw [parse_template_expression]
      simp
    · intro c cs hcs
      rw [parse_if_block]
      simp
    · intro v cs hcs
      rw [parse_each_block]
      simp
    · intro v a cs hcs
      rw [parse_switch_block]
      simp
    · intro l cs hcs
      rw [parse_if_locale_block]
      simp
    · intro ts cs hcs
      rw [parse_block_until]
      simp
  | succ f ih =>
    obtain ⟨ihP, ihN, ihE, ihIf, ihEach, ihSw, ihLoc, ihB⟩ := ih
    obtain ⟨sP, sN, sE, sIf, sEach, sSw, sLoc, sB⟩ := parse_subset f
    refine ⟨?_, ?_, ?_, ?_, ?_, ?_, ?_, ?_⟩
    · -- parse
      intro cs hcs
      rw [parse]
      split
      next => simp
      next =>
        split
        next => simp
        next => simp
        next heq => exact absurd heq (ihN cs hcs)
        next => simp
        next n cs1 heq =>
          split
          next => simp
          next => simp
          next heq2 =>
            exact absurd heq2 (ihP cs1 (fun c hc => hcs c (sN cs (some n) cs1 heq hc)))
          next => simp
    · -- parse_next_node
      intro cs hcs
      rw [parse_next_node]
      split
      next start heq =>
        split
        next => simp
        next => exact ihE (cs.drop 2) (fun c hc => hcs c (List.mem_of_mem_drop hc))
      next =>
        split
        next => simp
        next => simp
    · -- parse_template_expression
      intro cs hcs
      rw [parse_template_expression]
      split
      next => simp
      next e heq =>
        split
        next => exact ihIf _ _ (fun c hc => hcs c (List.mem_of_mem_drop hc))
        next =>
          split
          next => exact ihEach _ _ (fun c hc => hcs c (List.mem_of_mem_drop hc))
          next =>
            split
            next => exact ihSw _ _ _ (fun c hc => hcs c (List.mem_of_mem_drop hc))
            next =>
              split
              next => exact ihLoc _ _ (fun c hc => hcs c (List.mem_of_mem_drop hc))
              next =>
                split
                next =>
                  split
                  next => simp
                  next => simp
                next =>
                  split
                  next =>
                    split
                    next => simp
                    next => simp
                  next =>
                    split
                    next =>
                      split
                      next => simp
                      next => simp
                    next =>
                      split
                      next => simp
                      next => simp
    · -- parse_if_block
      intro c cs hcs
      rw [parse_if_block]
      split
      next => simp
      next => simp
      next heq => exact absurd heq (ihB _ _ hcs)
      next thenC cs1 heq =>
        have hs1 : cs1 ⊆ cs := sB _ _ _ _ heq
        split
        next =>
          split
          next => simp
          next => simp
          next heq2 =>
            exact absurd heq2
              (ihB _ _ (fun x hx => hcs x (hs1 (List.mem_of_mem_drop hx))))
          next => simp
        next => simp
    · -- parse_each_block
      intro v cs hcs
      rw [parse_each_block]
      split
      next => simp
      next => simp
      next heq => exact absurd heq (ihB _ _ hcs)
      next => simp
    · -- parse_switch_block
      intro v a cs hcs
      rw [parse_switch_block]
      split
      next => simp
      next =>
        split
        next => simp
        next =>
          split
          next cstart heq =>
            split
            next cend heq2 =>
              split
              next => simp
              next => simp
              next heq3 =>
                refine absurd heq3 (ihB _ _ ?_)
                intro x hx
                exact hcs x (List.mem_of_mem_drop (List.mem_of_mem_drop hx))
              next content cs3 heq3 =>
                have hs3 : cs3 ⊆ cs := by
                  intro x hx
                  exact List.mem_of_mem_drop (List.mem_of_mem_drop (sB _ _ _ _ heq3 hx))
                refine ihSw _ _ _ ?_
                intro x hx
                refine hcs x (hs3 ?_)
                revert hx
                split
                next => exact fun hx => List.mem_of_mem_drop hx
                next => exact fun hx => hx
            next => simp
          next =>
            split
            next c hc =>
              split
              next h1 =>
                have hm : c ∈ cs := List.mem_of_mem_head? (Option.mem_def.mpr hc)
                exact absurd (hcs c hm) (by omega)
              next => exact ihSw _ _ _ (fun x hx => hcs x (List.mem_of_mem_drop hx))
            next => simp
    · -- parse_if_locale_block
      intro l cs hcs
      rw [parse_if_locale_block]
      split
      next => simp
      next => simp
      next heq => exact absurd heq (ihB _ _ hcs)
      next thenC cs1 heq =>
        have hs1 : cs1 ⊆ cs := sB _ _ _ _ heq
        split
        next =>
          split
          next => simp
          next => simp
          next heq2 =>
            exact absurd heq2
              (ihB _ _ (fun x hx => hcs x (hs1 (List.mem_of_mem_drop hx))))
          next => simp
        next => simp
    · -- parse_block_until
      intro ts cs hcs
      rw [parse_block_until]
      split
      next => simp
      next =>
        split
        next => simp
        next =>
          split
          next => simp
          next => simp
          next heq => exact absurd heq (ihN _ hcs)
          next => simp
          next n cs1 heq =>
            split
            next => simp
            next => simp
            next heq2 =>
              exact absurd heq2 (ihB _ _ (fun x hx => hcs x (sN _ _ _ heq hx)))
            next => simp

theorem text_take_clean (cs : List Char) (i : Nat) (h : findSub tokOpen cs = some i) :
    nodeClean (.text (String.mk (cs.take i))) = true := by
  simp only [nodeClean, strContainsSub]
  have he : ("\x7b\x7b" : String).toList = tokOpen := rfl
  have hm : (String.mk (cs.take i)).toList = cs.take i := rfl
  rw [he, hm, findSub_take_none tokOpen (by decide) cs i h]
  rfl

theorem text_all_clean (cs : List Char) (h : findSub tokOpen cs = none) :
    nodeClean (.text (String.mk cs)) = true := by
  simp only [nodeClean, strContainsSub]
  have he : ("\x7b\x7b" : String).toList = tokOpen := rfl
  have hm : (String.mk cs).toList = cs := rfl
  rw [he, hm, h]
  rfl

theorem casesClean_append (a : List (String × List Node)) (c : String × List Node) :
    casesClean (a ++ [c]) = (casesClean a && nodesClean c.2) := by
  induction a with
  | nil => simp [casesClean]
  | cons x xs ih => simp [casesClean, ih, Bool.and_assoc]

theorem include_expr_clean (e : String) (n : Option Node)
    (h : parse_include_expression e = .ok n) : optClean n = true := by
  unfold parse_include_expression at h
  split at h
  next => cases h
  next => cases h; simp [optClean, nodeClean]

theorem i18n_expr_clean (e : String) (n : Option Node)
    (h : parse_i18n_expression e = .ok n) : optClean n = true := by
  unfold parse_i18n_expression at h
  split at h
  next => cases h
  next => cases h; simp [optClean, nodeClean]

theorem helper_expr_clean (e : String) (n : Option Node)
    (h : parse_helper_expression e = .ok n) : optClean n = true := by
  unfold parse_helper_expression at h
  split at h
  next => cases h
  next => cases h; simp [optClean, nodeClean]

/-- Every node produced by a successful parse has marker-free literal text:
a `\x7b\x7b` in the source always begins a parsed expression. -/
theorem parse_clean (fuel : Nat) :
    (∀ cs r cs2, parse fuel cs = .ok (r, cs2) → nodesClean r = true) ∧
    (∀ cs n cs2, parse_next_node fuel cs = .ok (n, cs2) → optClean n = true) ∧
    (∀ cs n cs2, parse_template_expression fuel cs = .ok (n, cs2) → optClean n = true) ∧
    (∀ c cs n cs2, parse_if_block fuel c cs = .ok (n, cs2) → optClean n = true) ∧
    (∀ v cs n cs2, parse_each_block fuel v cs = .ok (n, cs2) → optClean n = true) ∧
    (∀ v a cs n cs2, casesClean a = true →
      parse_switch_block fuel v a cs = .ok (n, cs2) → optClean n = true) ∧
    (∀ l cs n cs2, parse_if_locale_block fuel l cs = .ok (n, cs2) → optClean n = true) ∧
    (∀ ts cs ns cs2, parse_block_until fuel ts cs = .ok (ns, cs2) → nodesClean ns = true) := by
  induction fuel with
  | zero =>
    refine ⟨?_, ?_, ?_, ?_, ?_, ?_, ?_, ?_⟩
    · intro cs r cs2 h
      rw [parse] at h
      cases h
    · intro cs n cs2 h
      rw [parse_next_node] at h
      cases h
    · intro cs n cs2 h
      rw [parse_template_expression] at h
      cases h
    · intro c cs n cs2 h
      rw [parse_if_block] at h
      cases h
    · intro v cs n cs2 h
      rw [parse_each_block] at h
      cases h
    · intro v a cs n cs2 _ h
      rw [parse_switch_block] at h
      cases h
    · intro l cs n cs2 h
      rw [parse_if_locale_block] at h
      cases h
    · intro ts cs ns cs2 h
      rw [parse_block_until] at h
      cases h
  | succ f ih =>
    obtain ⟨ihP, ihN, ihE, ihIf, ihEach, ihSw, ihLoc, ihB⟩ := ih
    refine ⟨?_, ?_, ?_, ?_, ?_, ?_, ?_, ?_⟩
    · -- parse
      intro cs r cs2 h
      rw [parse] at h
      split at h
      next => cases h; simp [nodesClean]
      next =>
        split at h
        next => cases h
        next => cases h
        next => cases h
        next =>
          rename_i cs1 heq
          cases h
          simp [nodesClean]
        next =>
          rename_i n cs1 heq
          split at h
          next => cases h
          next => cases h
          next => cases h
          next =>
            rename_i ns cs3 heq2
            cases h
            have h1 : nodeClean n = true := by
              have := ihN cs (some n) cs1 heq
              simpa [optClean] using this
            have h2 := ihP cs1 ns cs2 heq2
            simp [nodesClean, h1, h2]
    · -- parse_next_node
      intro cs n cs2 h
      rw [parse_next_node] at h
      split at h
      next =>
        rename_i start heq
        split at h
        next =>
          cases h
          simpa [optClean] using text_take_clean cs start heq
        next => exact ihE _ _ _ h
      next =>
        rename_i heq
        split at h
        next => cases h; rfl
        next =>
          cases h
          simpa [optClean] using text_all_clean cs heq
    · -- parse_template_expression
      intro cs n cs2 h
      rw [parse_template_expression] at h
      split at h
      next => cases h
      next =>
        rename_i e heq
        split at h
        next => exact ihIf _ _ _ _ h
        next =>
          split at h
          next => exact ihEach _ _ _ _ h
          next =>
            split at h
            next => exact ihSw _ _ _ _ _ (by simp [casesClean]) h
            next =>
              split at h
              next => exact ihLoc _ _ _ _ h
              next =>
                split at h
                next =>
                  split at h
                  next => cases h
                  next =>
                    rename_i heq2
                    cases h
                    exact include_expr_clean _ _ heq2
                next =>
                  split at h
                  next =>
                    split at h
                    next => cases h
                    next =>
                      rename_i heq2
                      cases h
                      exact i18n_expr_clean _ _ heq2
                  next =>
                    split at h
                    next =>
                      split at h
                      next => cases h
                      next =>
                        rename_i heq2
                        cases h
                        exact helper_expr_clean _ _ heq2
                    next =>
                      split at h
                      next => cases h; simp [optClean, nodeClean]
                      next => cases h; simp [optClean, nodeClean]
    · -- parse_if_block
      intro c cs n cs2 h
      rw [parse_if_block] at h
      split at h
      next => cases h
      next => cases h
      next => cases h
      next =>
        rename_i thenC cs1 heq
        have h1 := ihB _ _ _ _ heq
        split at h
        next =>
          split at h
          next => cases h
          next => cases h
          next => cases h
          next =>
            rename_i elseC cs3 heq2
            have h2 := ihB _ _ _ _ heq2
            cases h
            simp [optClean, nodeClean, h1, h2]
        next =>
          cases h
          simp [optClean, nodeClean, h1]
    · -- parse_each_block
      intro v cs n cs2 h
      rw [parse_each_block] at h
      split at h
      next => cases h
      next => cases h
      next => cases h
      next =>
        rename_i content cs1 heq
        have h1 := ihB _ _ _ _ heq
        cases h
        simp [optClean, nodeClean, h1]
    · -- parse_switch_block
      intro v a cs n cs2 ha h
      rw [parse_switch_block] at h
      split at h
      next =>
        cases h
        simpa [optClean, nodeClean] using ha
      next =>
        split at h
        next =>
          cases h
          simpa [optClean, nodeClean] using ha
        next =>
          split at h
          next =>
            rename_i cstart heq
            split at h
            next =>
              rename_i cend heq2
              split at h
              next => cases h
              next => cases h
              next => cases h
              next =>
                rename_i content cs3 heq3
                have h3 := ihB _ _ _ _ heq3
                have ha2 : casesClean (a ++
                    [(trim_matches '"' (rtrim (String.mk ((cs.drop (cstart + 8)).take cend))),
                      content)]) = true := by
                  rw [casesClean_append]
                  simp [ha, h3]
                exact ihSw _ _ _ _ _ ha2 h
            next =>
              cases h
              simpa [optClean, nodeClean] using ha
          next =>
            split at h
            next =>
              split at h
              next => cases h
              next => exact ihSw _ _ _ _ _ ha h
            next =>
              cases h
              simpa [optClean, nodeClean] using ha
    · -- parse_if_locale_block
      intro l cs n cs2 h
      rw [parse_if_locale_block] at h
      split at h
      next => cases h
      next => cases h
      next => cases h
      next =>
        rename_i thenC cs1 heq
        have h1 := ihB _ _ _ _ heq
        split at h
        next =>
          split at h
          next => cases h
          next => cases h
          next => cases h
          next =>
            rename_i elseC cs3 heq2
            have h2 := ihB _ _ _ _ heq2
            cases h
            simp [optClean, nodeClean, h1, h2]
        next =>
          cases h
          simp [optClean, nodeClean, h1]
    · -- parse_block_until
      intro ts cs ns cs2 h
      rw [parse_block_until] at h
      split at h
      next => cases h; simp [nodesClean]
      next =>
        split at h
        next => cases h; simp [nodesClean]
        next =>
          split at h
          next => cases h
          next => cases h
          next => cases h
          next =>
            rename_i cs1 heq
            cases h
            simp [nodesClean]
          next =>
            rename_i n cs1 heq
            split at h
            next => cases h
            next => cases h
            next => cases h
            next =>
              rename_i ns2 cs3 heq2
              cases h
              have h1 : nodeClean n = true := by
                have := ihN cs (some n) cs1 heq
                simpa [optClean] using this
              have h2 := ihB _ _ _ _ heq2
              simp [nodesClean, h1, h2]

/-- C3 counterexample: a parse-accepted template whose render is `Ok` can
still contain markers: the pure-text template consisting of the closing
braces renders to itself, and a variable value can reintroduce the opening
braces. -/
theorem C3_markers_counterexample :
    renderString emptyEnv 5 "\x7d\x7d" [] = .ok "\x7d\x7d" ∧
    strContainsSub "\x7d\x7d" "\x7d\x7d" = true ∧
    renderString emptyEnv 5 "\x7b\x7bx\x7d\x7d" [("x", Json.str "\x7b\x7b")] =
      .ok "\x7b\x7b" ∧
    strContainsSub "\x7b\x7b" "\x7b\x7b" = true := by
  exact ⟨by decide, by decide, by decide, by decide⟩

/-- C3 amended: no literal text node of a successfully parsed template
contains the expression opener, so unexpanded template expressions never
survive into rendered output as text; residual closing braces can only come
from literal text that never opened an expression, and either marker can be
reintroduced through supplied variable values. -/
theorem C3_markers_amended (s : String) (ns : List Node)
    (h : parseTemplate s = .ok ns) : nodesClean ns = true := by
  unfold parseTemplate at h
  split at h
  next => cases h
  next => cases h
  next => cases h
  next r heq =>
    cases h
    exact (parse_clean _).1 s.toList r.1 r.2 (by rw [heq])

/-- C3 witness: the amended theorem applied to a small parsed template. -/
theorem C3_markers_amended_witness :
    nodesClean [Node.text "hello ", Node.varN "x"] = true :=
  C3_markers_amended "hello \x7b\x7bx\x7d\x7d" [Node.text "hello ", Node.varN "x"] rfl

/-- C10 is corrected: parsing is not total. When no case tag starts at the
current position, `parse_switch_block` advances `self.position` by one
byte; on a multi-byte character this lands inside the character and the
slice at the top of the next iteration panics. Parsing
`\x7b\x7b#switch v\x7d\x7dé\x7b\x7b/switch\x7d\x7d` panics instead of
returning an AST or a parse error. -/
theorem C10_parse_panic_counterexample :
    parseTemplate "\x7b\x7b#switch v\x7d\x7dé\x7b\x7b/switch\x7d\x7d" = .panic := rfl

/-- C10 (amended): with fuel exceeding four times the input length plus
three, the node loop never exhausts its fuel, and on input made of
single-byte characters it never panics; in particular `parseTemplate`
never returns the fuel-exhaustion marker, and on single-byte input it
returns an AST or a parse error in finitely many steps. -/
theorem C10_parse_total_amended :
    (∀ (cs : List Char) (fuel : Nat), 4 * cs.length + 3 < fuel → parse fuel cs ≠ .out) ∧
    (∀ s : String, parseTemplate s ≠ .out) ∧
    (∀ (cs : List Char) (fuel : Nat), (∀ c ∈ cs, c.utf8Size = 1) →
      parse fuel cs ≠ .panic) ∧
    (∀ s : String, (∀ c ∈ s.toList, c.utf8Size = 1) → parseTemplate s ≠ .panic) := by
  refine ⟨?_, ?_, ?_, ?_⟩
  · intro cs fuel h
    exact (parse_no_out fuel).1 cs h
  · intro s
    unfold parseTemplate
    split
    next heq => exact absurd heq ((parse_no_out _).1 _ (by omega))
    next => simp
    next => simp
    next => simp
  · intro cs fuel h
    exact (parse_no_panic fuel).1 cs h
  · intro s h
    unfold parseTemplate
    split
    next => simp
    next => simp
    next heq => exact absurd heq ((parse_no_panic _).1 _ h)
    next => simp

/-- C10 witness: the amended totality instantiated at concrete inputs. -/
theorem C10_parse_total_amended_witness :
    parse 16 ['a', 'b', 'c'] ≠ Res.out ∧ parseTemplate "abc" ≠ Res.panic :=
  ⟨C10_parse_total_amended.1 ['a', 'b', 'c'] 16 (by decide),
   C10_parse_total_amended.2.2.2 "abc" (by decide)⟩
